import Mathlib

/-!
Verification development for the `dots` repository core: the dependency
injection container (`packages/core/src/di`), the middleware pipeline,
route matching, argument binding (`packages/core/src/hosting/application-builder.ts`)
and the response adapter (`packages/core/src/hosting/hono-adapters.ts`).

Modelling conventions:
* JS object identities are modelled as natural numbers; a freshly
  constructed object receives the next unused number from a counter.
* Service tokens are modelled as strings (a token is a type, string or
  symbol in the source; only its use as a lookup key and its printed
  name are observable here).
* JS `Map` objects are modelled as association lists with `Map.set`
  replace-or-append semantics and first-match lookup.
* Thrown errors are modelled with `Except String`; the error payload is
  the message string built exactly as in the source.
* Recursion between `getService`, `createInstance` and the constructor
  parameter loop is mediated by a fuel parameter; `none` means the fuel
  ran out (which on the real code corresponds to non-termination by
  cyclic dependency, a situation no claim concerns).
-/

/-- Lifetime of a registered service, from `di/service-lifetime.ts`
(`Singleton = 0`, `Scoped`, `Transient`). -/
inductive ServiceLifetime where
  | Singleton
  | Scoped
  | Transient
  deriving DecidableEq, Repr

/-- Constructor-based implementation: the constructor function name and,
for each constructor parameter, the resolved injection token
(`injectedParamTokens[i] || designParamTypes[i]` in
`DefaultServiceProvider.createInstance`); `none` models a parameter
whose token could not be determined at all. -/
structure CtorInfo where
  ctorName : String
  paramTokens : List (Option String)
  deriving DecidableEq, Repr

/-- Service descriptor, from `di/service-descriptor.ts`. The source
carries `implementationType`, `implementationInstance`,
`implementationFactory` and `lifetime`; factory-based descriptors are
not modelled (no claim concerns them), the other fields are kept.
Instances are object identities (see module docstring); an instance, as
a JS object reference, is always truthy. -/
structure ServiceDescriptor where
  serviceType : String
  implementationType : Option CtorInfo
  implementationInstance : Option Nat
  lifetime : ServiceLifetime
  deriving DecidableEq, Repr

/-- Registration: `DefaultServiceCollection.add` pushes the descriptor
onto the ordered list (`di/service-collection.ts`). -/
def addDescriptor (descriptors : List ServiceDescriptor)
    (descriptor : ServiceDescriptor) : List ServiceDescriptor :=
  descriptors ++ [descriptor]

/-- Lookup in a JS `Map` modelled as an association list. -/
def mapLookup {K V : Type} [DecidableEq K] : List (K × V) → K → Option V
  | [], _ => none
  | (k', v) :: rest, k => if k' = k then some v else mapLookup rest k

/-- JS `Map.set`: replace the value in place if the key is present,
otherwise append. -/
def mapSet {K V : Type} [DecidableEq K] : List (K × V) → K → V → List (K × V)
  | [], k, v => [(k, v)]
  | (k', v') :: rest, k, v =>
      if k' = k then (k, v) :: rest else (k', v') :: mapSet rest k v

/-- Identity of a resolver in the provider graph: the root
`DefaultServiceProvider`, or a scope created from the root by
`createScope` (which passes the creating provider as
`parentScopeProvider`). Scopes are numbered; the claims concern scopes
created from the root, so the parent of every scope is the root. -/
inductive Resolver where
  | root
  | scope (i : Nat)
  deriving DecidableEq, Repr

/-- Mutable state of the whole provider graph: the root provider
`singletonInstances` and `scopedInstances` maps, the `scopedInstances`
map of each scope, and the object-identity counter. -/
structure ProviderWorld where
  singletonInstances : List (String × Nat)
  rootScopedInstances : List (String × Nat)
  scopeScopedInstances : List (Nat × List (String × Nat))
  nextId : Nat
  deriving DecidableEq, Repr

/-- Reads the `scopedInstances` map of a resolver (a scope that was
never written to has an empty map). -/
def scopedCacheOf (w : ProviderWorld) : Resolver → List (String × Nat)
  | .root => w.rootScopedInstances
  | .scope i => (mapLookup w.scopeScopedInstances i).getD []

/-- Writes the `scopedInstances` map of a resolver. -/
def setScopedCache (w : ProviderWorld) : Resolver → List (String × Nat) → ProviderWorld
  | .root, c => { w with rootScopedInstances := c }
  | .scope i, c =>
      { w with scopeScopedInstances := mapSet w.scopeScopedInstances i c }

/-- State of the provider graph right after the root
`DefaultServiceProvider` is constructed: the constructor pre-populates
`singletonInstances` with every Singleton descriptor that carries a
pre-built instance (`Map.set`, so on duplicate tokens the last write
wins). `startId` seeds the object-identity counter. -/
def initialProviderWorld (descriptors : List ServiceDescriptor)
    (startId : Nat) : ProviderWorld :=
  { singletonInstances :=
      descriptors.foldl
        (fun m d =>
          match d.lifetime, d.implementationInstance with
          | .Singleton, some v => mapSet m d.serviceType v
          | _, _ => m)
        []
    rootScopedInstances := []
    scopeScopedInstances := []
    nextId := startId }

/-- Error message wrapper added by the `catch` block of
`DefaultServiceProvider.getService`. -/
def wrapServiceError (serviceName msg : String) : String :=
  "DI Error: Failed to create service \"" ++ serviceName ++ "\".\n  ---> " ++ msg

/-- Error thrown by `createInstance` when a constructor parameter has
neither a reflected type nor an explicit token (first sentence of the
source message; the advisory sentence about tsconfig is omitted). -/
def paramTokenMissingMsg (i : Nat) (ctorName : String) : String :=
  "Cannot resolve parameter at index " ++ toString i ++ " of \"" ++ ctorName ++
    "\" because its type could not be determined and no @Inject token was provided."

/-- Error thrown by `createInstance` when a dependency resolves to
null/undefined. -/
def unresolvedDepMsg (tokenName : String) (i : Nat) (ctorName : String) : String :=
  "Could not resolve dependency for token \"" ++ tokenName ++ "\" (parameter " ++
    toString i ++ " of \"" ++ ctorName ++
    "\"). Make sure this dependency is registered in the service collection."

/-- Error thrown by `createInstance` when the descriptor has no
implementation at all. -/
def cannotCreateMsg (serviceType : String) : String :=
  "Cannot create instance for service type: " ++ serviceType

/-- Calls into the resolver: `getService`, `createInstance`, and the
constructor-parameter resolution loop inside `createInstance`. -/
inductive DICall where
  | getSvc (self : Resolver) (serviceType : String)
  | createSvc (descriptor : ServiceDescriptor) (resolver : Resolver)
  | ctorParams (ctorName : String) (paramTokens : List (Option String))
      (paramIndex : Nat) (resolver : Resolver)

/-- Return values of the three call forms. -/
inductive DIRet where
  | svc (result : Option Nat)
  | created (instanceId : Nat)
  | params (deps : List Nat)
  deriving DecidableEq, Repr

/-- Interpreter for `DefaultServiceProvider` (`di/service-provider.ts`).
`getSvc` is `getService`: find the first descriptor whose `serviceType`
matches (`Array.prototype.find`), delegate to the parent on a miss from
a scope, then branch on the lifetime inside a try/catch that wraps any
error with the service name. `createSvc` is `createInstance`: a
pre-built instance is returned as is, otherwise the constructor
parameters are resolved in order through the resolving provider and a
fresh object identity is allocated. `ctorParams` is the parameter loop:
a missing token or a null dependency throws, otherwise the dependency
values are collected in order. Property injection is a no-op here (the
modelled constructors carry no property-injection metadata). -/
def diRun (ds : List ServiceDescriptor) :
    Nat → DICall → ProviderWorld → Option (Except String DIRet × ProviderWorld)
  | 0, _, _ => none
  | fuel + 1, .getSvc self tok, w =>
    match ds.find? (fun d => d.serviceType == tok) with
    | none =>
      match self with
      | .scope _ => diRun ds fuel (.getSvc .root tok) w
      | .root => some (.ok (.svc none), w)
    | some d =>
      match d.lifetime, self with
      | .Singleton, .root =>
        match mapLookup w.singletonInstances tok with
        | some v => some (.ok (.svc (some v)), w)
        | none =>
          match diRun ds fuel (.createSvc d .root) w with
          | none => none
          | some (.error e, w') => some (.error (wrapServiceError tok e), w')
          | some (.ok (.created v), w') =>
            let w'' := { w' with
              singletonInstances := mapSet w'.singletonInstances tok v }
            some (.ok (.svc (mapLookup w''.singletonInstances tok)), w'')
          | some (.ok _, _) => none
      | .Singleton, .scope _ =>
        match diRun ds fuel (.getSvc .root tok) w with
        | none => none
        | some (.error e, w') => some (.error (wrapServiceError tok e), w')
        | some (.ok r, w') => some (.ok r, w')
      | .Scoped, self =>
        match mapLookup (scopedCacheOf w self) tok with
        | some v => some (.ok (.svc (some v)), w)
        | none =>
          match diRun ds fuel (.createSvc d self) w with
          | none => none
          | some (.error e, w') => some (.error (wrapServiceError tok e), w')
          | some (.ok (.created v), w') =>
            let w'' := setScopedCache w' self
              (mapSet (scopedCacheOf w' self) tok v)
            some (.ok (.svc (mapLookup (scopedCacheOf w'' self) tok)), w'')
          | some (.ok _, _) => none
      | .Transient, self =>
        match diRun ds fuel (.createSvc d self) w with
        | none => none
        | some (.error e, w') => some (.error (wrapServiceError tok e), w')
        | some (.ok (.created v), w') => some (.ok (.svc (some v)), w')
        | some (.ok _, _) => none
  | fuel + 1, .createSvc d resv, w =>
    match d.implementationInstance with
    | some v => some (.ok (.created v), w)
    | none =>
      match d.implementationType with
      | some ctor =>
        match diRun ds fuel (.ctorParams ctor.ctorName ctor.paramTokens 0 resv) w with
        | none => none
        | some (.error e, w') => some (.error e, w')
        | some (.ok (.params _deps), w') =>
          some (.ok (.created w'.nextId), { w' with nextId := w'.nextId + 1 })
        | some (.ok _, _) => none
      | none => some (.error (cannotCreateMsg d.serviceType), w)
  | fuel + 1, .ctorParams cn ps i resv, w =>
    match ps with
    | [] => some (.ok (.params []), w)
    | none :: _ => some (.error (paramTokenMissingMsg i cn), w)
    | some t :: rest =>
      match diRun ds fuel (.getSvc resv t) w with
      | none => none
      | some (.error e, w') => some (.error e, w')
      | some (.ok (.svc none), w') => some (.error (unresolvedDepMsg t i cn), w')
      | some (.ok (.svc (some dep)), w') =>
        match diRun ds fuel (.ctorParams cn rest (i + 1) resv) w' with
        | none => none
        | some (.error e, w'') => some (.error e, w'')
        | some (.ok (.params deps), w'') => some (.ok (.params (dep :: deps)), w'')
        | some (.ok _, _) => none
      | some (.ok _, _) => none

/-- Entry point mirroring `provider.getService(token)`: run the
interpreter on a `getSvc` call. -/
def getService (ds : List ServiceDescriptor) (fuel : Nat) (self : Resolver)
    (tok : String) (w : ProviderWorld) :
    Option (Except String (Option Nat) × ProviderWorld) :=
  match diRun ds fuel (.getSvc self tok) w with
  | none => none
  | some (.error e, w') => some (.error e, w')
  | some (.ok (.svc r), w') => some (.ok r, w')
  | some (.ok _, _) => none

/-- HTTP method enum from `http/http-method.ts`. -/
inductive HttpMethod where
  | GET | POST | PUT | DELETE | PATCH | OPTIONS | HEAD | ALL
  deriving DecidableEq, Repr

/-- Payload handed to `HonoHttpResponseAdapter.send`: a string, a
Buffer (byte list), or any other object (JSON-serialized; its payload
is kept opaque as a tag). -/
inductive SendData where
  | strData (s : String)
  | bufferData (bytes : List Nat)
  | jsonData (tag : Nat)
  deriving DecidableEq, Repr

/-- Observable write of a response to the underlying Hono context: each
assignment `this.c.res = this.c.text/body/json/html(...)` is recorded
with its payload and status. -/
inductive HonoWrite where
  | textWrite (data : String) (status : Nat)
  | emptyBodyWrite (status : Nat)
  | bufferBodyWrite (bytes : List Nat) (status : Nat)
  | jsonWrite (tag : Nat) (status : Nat)
  | htmlWrite (data : String) (status : Nat)
  deriving DecidableEq, Repr

/-- State of a `HonoHttpResponseAdapter` (`hosting/hono-adapters.ts`):
the private fields `_statusCode`, `_isSent`, `_contentType`, plus the
headers set on the Hono context and the list of response writes (oldest
first). -/
structure HonoResponseState where
  statusCode : Nat := 200
  isSent : Bool := false
  contentType : Option String := none
  honoHeaders : List (String × String) := []
  resWrites : List HonoWrite := []
  deriving DecidableEq, Repr

namespace HonoHttpResponseAdapter

/-- Method `setHeader`: a warn-and-return no-op once the response was
sent, otherwise records the header on the Hono context. -/
def setHeader (st : HonoResponseState) (name value : String) : HonoResponseState :=
  if st.isSent then st
  else { st with honoHeaders := st.honoHeaders ++ [(name, value)] }

/-- Setter of the `contentType` property: stores `_contentType` and, if
the value is present, also sets the `Content-Type` header. -/
def setContentType (st : HonoResponseState) (value : Option String) : HonoResponseState :=
  let st1 := { st with contentType := value }
  match value with
  | some v => setHeader st1 "Content-Type" v
  | none => st1

/-- Method `end`: no-op when already sent, otherwise writes an empty
body with the current status code and marks the response sent. -/
def endResponse (st : HonoResponseState) : HonoResponseState :=
  if st.isSent then st
  else { st with
    resWrites := st.resWrites ++ [HonoWrite.emptyBodyWrite st.statusCode]
    isSent := true }

/-- Method `send`: no-op when already sent; `undefined`/`null` data
delegates to `end`; strings, Buffers and other objects are written as
text, raw body and JSON respectively, each defaulting the
`Content-Type` header when `_contentType` is unset; finally the sent
flag is raised. -/
def send (st : HonoResponseState) (data : Option SendData) : HonoResponseState :=
  if st.isSent then st
  else
    let st1 :=
      match data with
      | none => endResponse st
      | some (.strData s) =>
        let st' := if st.contentType.isSome then st
          else setHeader st "Content-Type" "text/plain; charset=utf-8"
        { st' with resWrites := st'.resWrites ++ [HonoWrite.textWrite s st'.statusCode] }
      | some (.bufferData b) =>
        let st' := if st.contentType.isSome then st
          else setHeader st "Content-Type" "application/octet-stream"
        { st' with resWrites := st'.resWrites ++ [HonoWrite.bufferBodyWrite b st'.statusCode] }
      | some (.jsonData j) =>
        let st' := if st.contentType.isSome then st
          else setHeader st "Content-Type" "application/json; charset=utf-8"
        { st' with resWrites := st'.resWrites ++ [HonoWrite.jsonWrite j st'.statusCode] }
    { st1 with isSent := true }

/-- Method `json`: no-op when already sent, otherwise a one-shot JSON
write. -/
def json (st : HonoResponseState) (tag : Nat) : HonoResponseState :=
  if st.isSent then st
  else
    let st' := if st.contentType.isSome then st
      else setHeader st "Content-Type" "application/json; charset=utf-8"
    { st' with
      resWrites := st'.resWrites ++ [HonoWrite.jsonWrite tag st'.statusCode]
      isSent := true }

/-- Method `html`: no-op when already sent, otherwise a one-shot HTML
write. -/
def html (st : HonoResponseState) (content : String) : HonoResponseState :=
  if st.isSent then st
  else
    let st' := if st.contentType.isSome then st
      else setHeader st "Content-Type" "text/html; charset=utf-8"
    { st' with
      resWrites := st'.resWrites ++ [HonoWrite.htmlWrite content st'.statusCode]
      isSent := true }

/-- Method `status`: stores the status code for the eventual write. -/
def status (st : HonoResponseState) (code : Nat) : HonoResponseState :=
  { st with statusCode := code }

end HonoHttpResponseAdapter

/-- Request context threaded through the middleware pipeline: the
request method and path, the response adapter state, and an
observation log used by middleware defined in the theorems. -/
structure ModelHttpContext where
  reqMethod : HttpMethod
  reqPath : String
  response : HonoResponseState
  log : List String := []
  deriving DecidableEq, Repr

/-- Middleware signature `(context, next) => Promise<void>`: the shared
mutable context becomes explicit state passing, `next` becomes a
continuation on the context. -/
abbrev Middleware := ModelHttpContext → (ModelHttpContext → ModelHttpContext) → ModelHttpContext

/-- Default terminal handler of `DefaultApplicationBuilder.build`: when
no response was sent, respond 404 with the text
`"Not Found fallback."`. -/
def terminalNotFound (ctx : ModelHttpContext) : ModelHttpContext :=
  if ctx.response.isSent then ctx
  else
    let resp := { ctx.response with statusCode := 404 }
    { ctx with
      response := HonoHttpResponseAdapter.send resp (some (.strData "Not Found fallback.")) }

/-- Method `build` of `DefaultApplicationBuilder`: starting from the
terminal 404 handler, iterate the middleware list from the last to the
first, wrapping the already-built chain as the `next` of each middleware —
a right fold. -/
def build (middlewares : List Middleware) : ModelHttpContext → ModelHttpContext :=
  middlewares.foldr (fun mw app => fun ctx => mw ctx (fun c => app c)) terminalNotFound

/-- Compiled route entry (`RouteData` in
`routing/routing-interfaces.ts`): HTTP method, full path pattern,
owning controller and action names. Disambiguation metadata is resolved
before the table is scanned, so it does not appear here. -/
structure RouteData where
  method : HttpMethod
  path : String
  controllerName : String
  actionName : String
  deriving DecidableEq, Repr

/-- Piece of the route regex built by `findMatchedRoute`: a literal
character carried over from the path, or a `([^/]+)` capture group that
replaced a `:name` parameter. Characters other than `:name` parameters
are placed into the regex verbatim, so route paths containing regex
metacharacters are outside this model. -/
inductive PatternPiece where
  | lit (c : Char)
  | param (name : String)
  deriving DecidableEq, Repr

/-- Word character of the JS regex class `\w`. -/
def isWordChar (c : Char) : Bool := c.isAlphanum || c = '_'

/-- Scanner for `route.path.replace(/:(\w+)/g, ...)`: a `:` followed by
at least one word character opens a parameter whose name is the maximal
word-character run; everything else stays literal. The second argument
accumulates (reversed) the name of the parameter being read. -/
def compileAux : List Char → Option (List Char) → List PatternPiece
  | [], none => []
  | [], some acc => if acc = [] then [.lit ':'] else [.param (String.mk acc.reverse)]
  | c :: rest, none =>
    if c = ':' then compileAux rest (some [])
    else .lit c :: compileAux rest none
  | c :: rest, some acc =>
    if isWordChar c then compileAux rest (some (c :: acc))
    else
      let closed := if acc = [] then [PatternPiece.lit ':']
        else [PatternPiece.param (String.mk acc.reverse)]
      closed ++
        (if c = ':' then compileAux rest (some [])
         else .lit c :: compileAux rest none)

/-- Pattern of a route path, as the anchored regex `findMatchedRoute`
builds from it. -/
def compilePath (path : String) : List PatternPiece := compileAux path.data none

/-- Names of the capture groups, in order — the `paramNames` array
collected while building the regex. -/
def patternParamNames (pieces : List PatternPiece) : List String :=
  pieces.filterMap (fun p => match p with | .param n => some n | .lit _ => none)

/-- Candidate splits for a `([^/]+)` group: every non-empty prefix of
the maximal slash-free run, longest first (the JS regex engine tries
greedy matches with backtracking). -/
def nonSlashPrefixesDesc (s : List Char) : List (List Char × List Char) :=
  let m := (s.takeWhile (fun c => c ≠ '/')).length
  (List.range m).map (fun k => (s.take (m - k), s.drop (m - k)))

/-- Backtracking loop over the candidate splits of a capture group. -/
def trySplits (matchRest : List Char → Option (List (List Char))) :
    List (List Char × List Char) → Option (List (List Char))
  | [] => none
  | (pre, suf) :: more =>
    match matchRest suf with
    | some caps => some (pre :: caps)
    | none => trySplits matchRest more

/-- Matcher for the anchored pattern: literals must coincide, a capture
group consumes one to a-whole-segment of slash-free characters
(greedily, with backtracking), and the whole input must be consumed
(`^...$`). Returns the captured groups in order. -/
def matchPieces : List PatternPiece → List Char → Option (List (List Char))
  | [], s => if s = [] then some [] else none
  | .lit _ :: _, [] => none
  | .lit c :: rest, c' :: s' => if c' = c then matchPieces rest s' else none
  | .param _ :: rest, s => trySplits (matchPieces rest) (nonSlashPrefixesDesc s)

/-- Value of a hexadecimal digit. -/
def hexDigitVal (c : Char) : Option Nat :=
  if '0' ≤ c ∧ c ≤ '9' then some (c.toNat - 48)
  else if 'a' ≤ c ∧ c ≤ 'f' then some (c.toNat - 97 + 10)
  else if 'A' ≤ c ∧ c ≤ 'F' then some (c.toNat - 65 + 10)
  else none

/-- Modelled builtin `decodeURIComponent`, byte-wise: every `%hh`
escape becomes the character with code `hh`. The JS builtin
additionally combines UTF-8 multibyte sequences into single characters
and throws a `URIError` on malformed input; the model covers
single-byte escapes and leaves malformed escapes in place. -/
def percentDecodeAux : List Char → List Char
  | [] => []
  | '%' :: a :: b :: rest =>
    match hexDigitVal a, hexDigitVal b with
    | some ha, some hb => Char.ofNat (16 * ha + hb) :: percentDecodeAux rest
    | _, _ => '%' :: percentDecodeAux (a :: b :: rest)
  | c :: rest => c :: percentDecodeAux rest

/-- String form of the byte-wise `decodeURIComponent` model. -/
def percentDecode (s : String) : String := String.mk (percentDecodeAux s.data)

/-- Path normalization at the top of `findMatchedRoute`: strip one
trailing slash unless the path is a single character. -/
def normalizeRequestPath (requestPath : String) : String :=
  if requestPath.data.getLast? = some '/' ∧ requestPath.data.length > 1 then
    String.mk requestPath.data.dropLast
  else requestPath

/-- Route parameters of a match: `paramNames.forEach((name, index) =>
params[name] = decodeURIComponent(match[index + 1]))` — pairing the
collected names with the decoded captures, written into a JS object
(last write wins on duplicate names). -/
def extractRouteParams (pieces : List PatternPiece) (caps : List (List Char)) :
    List (String × String) :=
  ((patternParamNames pieces).zip (caps.map (fun c => percentDecode (String.mk c)))).foldl
    (fun m p => mapSet m p.1 p.2) []

/-- Method `findMatchedRoute` of `DefaultApplicationBuilder`: normalize
the inbound path, then scan the route table in order, skipping entries
whose method differs, and return the first entry whose compiled pattern
matches the normalized path, together with its extracted route
parameters; `none` when nothing matches. -/
def scanRoutes (httpMethod : HttpMethod) (normalizedRequestPath : List Char) :
    List RouteData → Option (RouteData × List (String × String))
  | [] => none
  | route :: rest =>
    if route.method ≠ httpMethod then scanRoutes httpMethod normalizedRequestPath rest
    else
      match matchPieces (compilePath route.path) normalizedRequestPath with
      | some caps => some (route, extractRouteParams (compilePath route.path) caps)
      | none => scanRoutes httpMethod normalizedRequestPath rest

/-- Method `findMatchedRoute` of `DefaultApplicationBuilder`, entry
point: normalize, then scan. -/
def findMatchedRoute (routes : List RouteData) (httpMethod : HttpMethod)
    (requestPath : String) : Option (RouteData × List (String × String)) :=
  scanRoutes httpMethod (normalizeRequestPath requestPath).data routes

/-- Router middleware of `DefaultApplicationBuilder` (`routerMiddleware`):
on a route match, dispatch to the controller action (the dispatch body
— controller resolution, argument binding, result handling — is
abstracted as `handleMatch`, which no claim here concerns); when no
route matches, invoke `next`. -/
def routerMiddleware (routes : List RouteData)
    (handleMatch : RouteData × List (String × String) → ModelHttpContext → ModelHttpContext) :
    Middleware :=
  fun ctx next =>
    match findMatchedRoute routes ctx.reqMethod ctx.reqPath with
    | some matched => handleMatch matched ctx
    | none => next ctx

/-- Runtime JS value flowing through argument binding and coercion.
Numbers are rationals (`none`-free; NaN appears only as the outcome of
a failed numeric parse); non-primitive values are opaque tags. -/
inductive JsValue where
  | undef
  | vnull
  | vstr (s : String)
  | vnum (q : ℚ)
  | vbool (b : Bool)
  | vobj (tag : Nat)
  deriving DecidableEq, Repr

/-- Target constructor handed to `convertToType` as `targetType`. A
`classCtor` is any constructor other than `String`/`Number`/`Boolean`/
`Object`/`Array`; modelled class constructors have object prototypes
(the normal case for classes), so they pass the composite-type test in
the source. -/
inductive JsCtor where
  | strCtor
  | numCtor
  | boolCtor
  | objCtor
  | arrCtor
  | classCtor (name : String)
  deriving DecidableEq, Repr

/-- Name of a constructor function (`ctor.name`). -/
def ctorName : JsCtor → String
  | .strCtor => "String"
  | .numCtor => "Number"
  | .boolCtor => "Boolean"
  | .objCtor => "Object"
  | .arrCtor => "Array"
  | .classCtor n => n

/-- Digits to a natural number. -/
def digitsVal (cs : List Char) : Nat :=
  cs.foldl (fun a c => a * 10 + (c.toNat - 48)) 0

/-- Unsigned decimal literal: digits with an optional fraction part
(`"5"`, `"5."`, `".5"`, `"5.25"`). -/
def parseUnsigned (cs : List Char) : Option ℚ :=
  let intPart := cs.takeWhile Char.isDigit
  let rest := cs.dropWhile Char.isDigit
  match rest with
  | [] => if intPart = [] then none else some (digitsVal intPart)
  | '.' :: frac =>
    if frac.all Char.isDigit ∧ (intPart ≠ [] ∨ frac ≠ []) then
      some ((digitsVal intPart : ℚ) + (digitsVal frac : ℚ) / (10 ^ frac.length))
    else none
  | _ => none

/-- JS whitespace for `String.prototype.trim` (ASCII subset of the
model). -/
def isJsWhitespace (c : Char) : Bool :=
  c = ' ' ∨ c = '\t' ∨ c = '\n' ∨ c = '\r' ∨ c = '\x0b' ∨ c = '\x0c'

/-- Modelled builtin `string.trim()` over the character list. -/
def jsTrim (s : String) : String :=
  String.mk (((s.data.dropWhile isJsWhitespace).reverse.dropWhile isJsWhitespace).reverse)

/-- ASCII lowercasing of one character (model of the relevant part of
`String.prototype.toLowerCase`). -/
def asciiLowerChar (c : Char) : Char :=
  if 'A' ≤ c ∧ c ≤ 'Z' then Char.ofNat (c.toNat + 32) else c

/-- Modelled builtin `string.toLowerCase()` (ASCII). -/
def asciiToLower (s : String) : String := String.mk (s.data.map asciiLowerChar)

/-- Modelled builtin `Number(string)`: trim, empty means zero, then an
optionally signed decimal literal; everything else is NaN (`none`).
The builtin additionally accepts exponents, hex/octal/binary literals
and `Infinity`, which are outside the model. -/
def jsStringToNumber (s : String) : Option ℚ :=
  let t := jsTrim s
  if t = "" then some 0
  else
    match t.data with
    | '-' :: rest => (parseUnsigned rest).map Neg.neg
    | '+' :: rest => parseUnsigned rest
    | cs => parseUnsigned cs

/-- Modelled builtin `Number(value)` on the values of the model. -/
def jsToNumber : JsValue → Option ℚ
  | .undef => none
  | .vnull => some 0
  | .vstr s => jsStringToNumber s
  | .vnum q => some q
  | .vbool b => some (if b then 1 else 0)
  | .vobj _ => none

/-- Modelled builtin `String(value)`; the rendering of non-integer
numbers and of objects is a placeholder (no claim inspects it). -/
def jsToString : JsValue → String
  | .undef => "undefined"
  | .vnull => "null"
  | .vstr s => s
  | .vnum q =>
    if q.den = 1 then
      (if q.num < 0 then "-" ++ toString q.num.natAbs else toString q.num.natAbs)
    else toString q
  | .vbool b => if b then "true" else "false"
  | .vobj _ => "[object Object]"

/-- Modelled builtin `JSON.parse` on scalar literals: `true`, `false`,
`null`, decimal numbers and escape-free string literals. Object and
array literals are outside the model (modelled as a parse failure). -/
def jsonParse (s : String) : Option JsValue :=
  let t := jsTrim s
  if t = "true" then some (.vbool true)
  else if t = "false" then some (.vbool false)
  else if t = "null" then some .vnull
  else
    match t.data with
    | '"' :: rest =>
      if rest ≠ [] ∧ rest.getLast? = some '"' ∧
          (rest.dropLast.all (fun c => c ≠ '"' ∧ c ≠ '\\')) then
        some (.vstr (String.mk rest.dropLast))
      else none
    | '-' :: rest => (parseUnsigned rest).map (fun q => .vnum (-q))
    | cs => (parseUnsigned cs).map (fun q => .vnum q)

/-- Method `convertToType` of `DefaultApplicationBuilder`: `undefined`
values and missing target types pass through; a `String` target applies
`String(value)`; a `Number` target applies `Number(value)` with NaN
becoming `undefined`; a `Boolean` target is true exactly on `"true"`,
`true`, `"1"`, `1`; for a composite target (`Object`, `Array`, or a
class with an object prototype) a string value is `JSON.parse`d with
the raw value kept on parse failure; everything else passes through. -/
def convertToType (value : JsValue) (targetType : Option JsCtor) : JsValue :=
  if value = .undef ∨ targetType = none then value
  else
    match targetType with
    | none => value
    | some .strCtor => .vstr (jsToString value)
    | some .numCtor =>
      match jsToNumber value with
      | none => .undef
      | some q => .vnum q
    | some .boolCtor =>
      .vbool (decide (value = .vstr "true" ∨ value = .vbool true ∨
        value = .vstr "1" ∨ value = .vnum 1))
    | some .objCtor | some .arrCtor | some (.classCtor _) =>
      match value with
      | .vstr s =>
        match jsonParse s with
        | some parsed => parsed
        | none => .vstr s
      | v => v

/-- Parameter binding metadata (`routing/decorators.ts`): source kind,
optional name override, the position of the parameter, and the
optional declared target type. The source kind is a string in the
model because the claim about unknown kinds exercises the `default`
default branch of the switch in the source, which only untyped metadata reaches. -/
structure ParameterBindingMetadata where
  type : String
  name : Option String
  paramIndex : Nat
  paramType : Option JsCtor
  deriving DecidableEq, Repr

/-- Ambient sources the binder reads from: the parsed request body,
query parameters, headers (keys already lowercased by the request
adapter), the values injected for `context`/`request`/`response`, and
the service registry view of the request scope (a missing service resolves
to `null`, which the binder assigns as is). -/
structure BindSources where
  body : JsValue
  query : List (String × JsValue)
  headers : List (String × JsValue)
  contextVal : JsValue
  requestVal : JsValue
  responseVal : JsValue
  services : List (String × JsValue)
  deriving Repr

/-- JS sparse-array assignment `args[i] = v`: extend with `undefined`
holes up to index `i`, then set. -/
def setArg (args : List JsValue) (i : Nat) (v : JsValue) : List JsValue :=
  let padded :=
    if args.length < i + 1 then args ++ List.replicate (i + 1 - args.length) .undef
    else args
  padded.set i v

/-- Modelled `[...paramBindings].sort((a, b) => a.paramIndex -
b.paramIndex)`: a stable sort by ascending `paramIndex` (JS sort is
specified stable, and any stable sort computes the same list). -/
def sortBindings (l : List ParameterBindingMetadata) : List ParameterBindingMetadata :=
  List.insertionSort (fun a b => a.paramIndex ≤ b.paramIndex) l

/-- Name used to look up a query or route value: the explicit name, or
the lowercased declared type name, or `param<index>`. -/
def bindingLookupName (b : ParameterBindingMetadata) : String :=
  match b.name with
  | some n => n
  | none =>
    match b.paramType with
    | some t => asciiToLower (ctorName t)
    | none => "param" ++ toString b.paramIndex

/-- Binding of one parameter into the argument array — the body of the
switch inside `bindActionArguments`. -/
def applyBinding (src : BindSources) (routeParams : List (String × String))
    (args : List JsValue) (b : ParameterBindingMetadata) :
    Except String (List JsValue) :=
  match b.type with
  | "body" => .ok (setArg args b.paramIndex src.body)
  | "query" =>
    let queryValue := (mapLookup src.query (bindingLookupName b)).getD .undef
    .ok (setArg args b.paramIndex (convertToType queryValue b.paramType))
  | "route" =>
    let routeValue := (mapLookup routeParams (bindingLookupName b)).map JsValue.vstr
    .ok (setArg args b.paramIndex (convertToType (routeValue.getD .undef) b.paramType))
  | "header" =>
    let headerValue := (mapLookup src.headers (asciiToLower (bindingLookupName b))).getD .undef
    .ok (setArg args b.paramIndex (convertToType headerValue b.paramType))
  | "context" => .ok (setArg args b.paramIndex src.contextVal)
  | "request" => .ok (setArg args b.paramIndex src.requestVal)
  | "response" => .ok (setArg args b.paramIndex src.responseVal)
  | "service" =>
    match (match b.name with
           | some n => some n
           | none => b.paramType.map ctorName) with
    | none =>
      .error ("Service token not specified for parameter " ++ toString b.paramIndex)
    | some token =>
      .ok (setArg args b.paramIndex ((mapLookup src.services token).getD .vnull))
  | _ => .ok (setArg args b.paramIndex .undef)

/-- Loop of `bindActionArguments` over the sorted bindings. -/
def applyBindings (src : BindSources) (routeParams : List (String × String)) :
    List ParameterBindingMetadata → List JsValue → Except String (List JsValue)
  | [], args => .ok args
  | b :: rest, args =>
    match applyBinding src routeParams args b with
    | .error e => .error e
    | .ok args' => applyBindings src routeParams rest args'

/-- Method `bindActionArguments` of `DefaultApplicationBuilder`: sort
the binding metadata by ascending `paramIndex` (stably), then fill a
fresh argument array binding each parameter from its declared source.
The source additionally skips falsy entries of a sparse metadata array;
the modelled metadata list is dense. -/
def bindActionArguments (paramBindings : List ParameterBindingMetadata)
    (src : BindSources) (routeParams : List (String × String)) :
    Except String (List JsValue) :=
  applyBindings src routeParams (sortBindings paramBindings) []

/-! ## Claim C1: duplicate registrations -/

/-- Registry with two descriptors registered for the same token `"A"`:
first a pre-built transient instance `1`, then a pre-built transient
instance `2`. -/
def C1registry : List ServiceDescriptor :=
  addDescriptor (addDescriptor [] ⟨"A", none, some 1, .Transient⟩)
    ⟨"A", none, some 2, .Transient⟩

/-- Claim C1 states that with duplicate registrations the
last-registered descriptor is selected. On the registry `C1registry`
the last-registered descriptor for `"A"` carries instance `2`, yet
resolution returns instance `1` (the first-registered descriptor):
`Array.prototype.find` in `getService` returns the first match. -/
theorem C1_last_registration_counterexample :
    getService C1registry 10 .root "A" (initialProviderWorld C1registry 100) =
      some (.ok (some 1), initialProviderWorld C1registry 100) ∧
    some (1 : Nat) ≠ some 2 := by
  exact ⟨rfl, by decide⟩

/-- Claim C1 amended: resolution uses the **first**-registered
descriptor matching the token, so earlier registrations override later
ones (here demonstrated in full generality for a first-registered
pre-built transient instance: whatever descriptors follow it in the
registry, its instance is returned). -/
theorem C1_first_registration_wins (tok : String) (v : Nat)
    (rest : List ServiceDescriptor) (w : ProviderWorld) (fuel : Nat) :
    getService (⟨tok, none, some v, .Transient⟩ :: rest) (fuel + 2) .root tok w =
      some (.ok (some v), w) := by
  simp [getService, diRun]

/-! ## Claim C5: pipeline ordering -/

/-- Middleware that tags the context log before and after calling
`next`, recording whether the response was already sent at each
point. -/
def pipelineTagMiddleware (name : String) : Middleware := fun ctx next =>
  let ctx1 := { ctx with
    log := ctx.log ++ [name ++ "-before:" ++ (if ctx.response.isSent then "sent" else "unsent")] }
  let ctx2 := next ctx1
  { ctx2 with
    log := ctx2.log ++ [name ++ "-after:" ++ (if ctx2.response.isSent then "sent" else "unsent")] }

/-- Fresh request context for the pipeline-ordering scenario. -/
def pipelineProbeContext : ModelHttpContext :=
  { reqMethod := .GET, reqPath := "/probe", response := {} }

/-- Claim C5: `build` right-folds the middleware list over the terminal
404 handler — `build []` is the terminal handler and `build (mw :: mws)`
runs `mw` with the already-built tail as its `next` — and in the
three-middleware scenario the observed order is A-before, B-before,
C-before, terminal (the only send, visible as the flip of the sent
flag and the single 404 write), C-after, B-after, A-after. -/
theorem C5_pipeline_order :
    (∀ (mw : Middleware) (mws : List Middleware) (ctx : ModelHttpContext),
      build (mw :: mws) ctx = mw ctx (build mws)) ∧
    build [] = terminalNotFound ∧
    (build [pipelineTagMiddleware "A", pipelineTagMiddleware "B",
        pipelineTagMiddleware "C"] pipelineProbeContext).log =
      ["A-before:unsent", "B-before:unsent", "C-before:unsent",
       "C-after:sent", "B-after:sent", "A-after:sent"] ∧
    (build [pipelineTagMiddleware "A", pipelineTagMiddleware "B",
        pipelineTagMiddleware "C"] pipelineProbeContext).response.resWrites =
      [.textWrite "Not Found fallback." 404] ∧
    (build [pipelineTagMiddleware "A", pipelineTagMiddleware "B",
        pipelineTagMiddleware "C"] pipelineProbeContext).response.statusCode = 404 := by
  refine ⟨fun mw mws ctx => rfl, rfl, ?_, ?_, ?_⟩ <;> rfl

/-! ## Claim C7: idempotent send -/

/-- Claim C7: on an unsent response, `send` performs exactly one
observable write and raises the sent flag; a second `send` (with any
payload) is a silent no-op returning the state unchanged, and the same
guard makes `json`, `html` and `end` no-ops as well. All the modelled
response operations are total, so no call throws. -/
theorem C7_idempotent_send (st : HonoResponseState)
    (data data' : Option SendData) (tag : Nat) (content : String)
    (h : st.isSent = false) :
    (HonoHttpResponseAdapter.send st data).isSent = true ∧
    (HonoHttpResponseAdapter.send st data).resWrites.length =
      st.resWrites.length + 1 ∧
    HonoHttpResponseAdapter.send (HonoHttpResponseAdapter.send st data) data' =
      HonoHttpResponseAdapter.send st data ∧
    HonoHttpResponseAdapter.json (HonoHttpResponseAdapter.send st data) tag =
      HonoHttpResponseAdapter.send st data ∧
    HonoHttpResponseAdapter.html (HonoHttpResponseAdapter.send st data) content =
      HonoHttpResponseAdapter.send st data ∧
    HonoHttpResponseAdapter.endResponse (HonoHttpResponseAdapter.send st data) =
      HonoHttpResponseAdapter.send st data := by
  have hsent : (HonoHttpResponseAdapter.send st data).isSent = true := by
    cases data with
    | none =>
      simp [HonoHttpResponseAdapter.send, h]
    | some d =>
      cases d <;> simp [HonoHttpResponseAdapter.send, h]
  refine ⟨hsent, ?_, ?_, ?_, ?_, ?_⟩
  · cases data with
    | none =>
      simp [HonoHttpResponseAdapter.send, HonoHttpResponseAdapter.endResponse, h]
    | some d =>
      cases d <;>
        simp [HonoHttpResponseAdapter.send, HonoHttpResponseAdapter.setHeader, h] <;>
        split <;> simp
  · rw [HonoHttpResponseAdapter.send.eq_def, if_pos hsent]
  · rw [HonoHttpResponseAdapter.json.eq_def, if_pos hsent]
  · rw [HonoHttpResponseAdapter.html.eq_def, if_pos hsent]
  · rw [HonoHttpResponseAdapter.endResponse.eq_def, if_pos hsent]

/-- Witness for C7 at a fresh response and a string payload. -/
theorem C7_idempotent_send_witness :
    ({} : HonoResponseState).isSent = false ∧
    (HonoHttpResponseAdapter.send ({} : HonoResponseState)
      (some (.strData "x"))).isSent = true := by
  exact ⟨rfl, (C7_idempotent_send {} (some (.strData "x")) (some (.strData "y"))
    0 "h" rfl).1⟩

/-! ## Claim C9: argument type coercion -/

/-- Claim C9: `"42"` to a numeric target is the number `42`; any string
whose numeric parse is NaN maps to `undefined` under a numeric target;
each of `"true"`, `true`, `"1"`, `1` maps to `true` under a boolean
target; a string under a composite target (`Object`, `Array` or a
class) is `JSON.parse`d with the raw string kept on parse failure; a
string target always yields `String(value)`. -/
theorem C9_argument_coercion :
    convertToType (.vstr "42") (some .numCtor) = .vnum 42 ∧
    (∀ s, jsStringToNumber s = none →
      convertToType (.vstr s) (some .numCtor) = .undef) ∧
    (∀ v : JsValue,
      v = .vstr "true" ∨ v = .vbool true ∨ v = .vstr "1" ∨ v = .vnum 1 →
      convertToType v (some .boolCtor) = .vbool true) ∧
    (∀ (s : String) (t : JsCtor),
      t = .objCtor ∨ t = .arrCtor ∨ (∃ n, t = .classCtor n) →
      convertToType (.vstr s) (some t) = (jsonParse s).getD (.vstr s)) ∧
    (∀ v : JsValue, v ≠ .undef →
      convertToType v (some .strCtor) = .vstr (jsToString v)) := by
  refine ⟨by decide, ?_, ?_, ?_, ?_⟩
  · intro s hs
    simp [convertToType, jsToNumber, hs]
  · rintro v (rfl | rfl | rfl | rfl) <;> decide
  · rintro s t (rfl | rfl | ⟨n, rfl⟩) <;>
      · simp only [convertToType]
        cases h : jsonParse s <;> simp [h]
  · intro v hv
    cases v <;> simp_all [convertToType]

/-- Witness for C9: the NaN, composite-fallback and string-target parts
applied at `"not-a-number"`, `"nope"` and `false`. -/
theorem C9_argument_coercion_witness :
    jsStringToNumber "not-a-number" = none ∧
    convertToType (.vstr "not-a-number") (some .numCtor) = .undef ∧
    convertToType (.vstr "nope") (some .objCtor) = .vstr "nope" ∧
    convertToType (.vbool false) (some .strCtor) = .vstr "false" := by
  refine ⟨rfl, C9_argument_coercion.2.1 "not-a-number" rfl, ?_, ?_⟩
  · have h := C9_argument_coercion.2.2.2.1 "nope" .objCtor (Or.inl rfl)
    have hp : jsonParse "nope" = none := rfl
    rw [hp] at h
    exact h
  · exact C9_argument_coercion.2.2.2.2 (.vbool false) (by decide)

/-! ## Claim C10: argument binding -/

/-- Successful single-parameter binding writes exactly the slot
`paramIndex` of the argument array. -/
theorem applyBinding_ok_eq (src : BindSources) (rp : List (String × String))
    (args : List JsValue) (b : ParameterBindingMetadata) (args' : List JsValue)
    (h : applyBinding src rp args b = .ok args') :
    ∃ v, args' = setArg args b.paramIndex v := by
  unfold applyBinding at h
  split at h <;>
    first
      | (cases h; exact ⟨_, rfl⟩)
      | (split at h
         · cases h
         · cases h; exact ⟨_, rfl⟩)

/-- Positions untouched by `setArg` keep their (defaulted) value. -/
theorem setArg_getD_ne (args : List JsValue) (i : Nat) (v : JsValue) (j : Nat)
    (h : j ≠ i) : (setArg args i v).getD j .undef = args.getD j .undef := by
  unfold setArg
  simp only [List.getD_eq_getElem?_getD]
  rw [List.getElem?_set_ne (by omega)]
  split
  · rcases Nat.lt_or_ge j args.length with hj | hj
    · rw [List.getElem?_append, if_pos hj]
    · rw [List.getElem?_append, if_neg (by omega), List.getElem?_eq_none hj,
        List.getElem?_replicate]
      split <;> rfl
  · rfl

/-- Indices not bound by any processed binding stay `undefined`. -/
theorem applyBindings_unbound (src : BindSources) (rp : List (String × String)) :
    ∀ (bs : List ParameterBindingMetadata) (args out : List JsValue),
      applyBindings src rp bs args = .ok out →
      ∀ i, (∀ b ∈ bs, b.paramIndex ≠ i) →
        args.getD i .undef = .undef → out.getD i .undef = .undef := by
  intro bs
  induction bs with
  | nil =>
    intro args out h i _ ha
    cases h
    exact ha
  | cons b rest ih =>
    intro args out h i hmem ha
    rw [applyBindings] at h
    split at h
    · cases h
    · next args' heq =>
      obtain ⟨v, rfl⟩ := applyBinding_ok_eq src rp args b args' heq
      exact ih _ _ h i (fun x hx => hmem x (List.mem_cons_of_mem _ hx))
        (by rw [setArg_getD_ne args _ v i (Ne.symm (hmem b (List.mem_cons_self b rest)))]; exact ha)

/-- Lists of bindings with pairwise-distinct indices that are
permutations of each other sort to the same list. -/
theorem sortBindings_eq_of_perm (pb1 pb2 : List ParameterBindingMetadata)
    (hperm : pb1.Perm pb2)
    (hnd : (pb1.map (fun b => b.paramIndex)).Nodup) :
    sortBindings pb1 = sortBindings pb2 := by
  haveI : IsAntisymm ParameterBindingMetadata
      (fun a b => a.paramIndex < b.paramIndex) :=
    ⟨fun a b h1 h2 => absurd (Nat.lt_trans h1 h2) (Nat.lt_irrefl _)⟩
  have hsortedle : ∀ l : List ParameterBindingMetadata,
      (sortBindings l).Sorted (fun a b => a.paramIndex ≤ b.paramIndex) := by
    intro l
    haveI : IsTotal ParameterBindingMetadata
        (fun a b => a.paramIndex ≤ b.paramIndex) :=
      ⟨fun a b => Nat.le_total a.paramIndex b.paramIndex⟩
    haveI : IsTrans ParameterBindingMetadata
        (fun a b => a.paramIndex ≤ b.paramIndex) :=
      ⟨fun a b c => Nat.le_trans⟩
    exact List.sorted_insertionSort _ l
  have hstrict : ∀ l : List ParameterBindingMetadata,
      (l.map (fun b => b.paramIndex)).Nodup →
      (sortBindings l).Sorted (fun a b => a.paramIndex < b.paramIndex) := by
    intro l hl
    have hndsort : ((sortBindings l).map (fun b => b.paramIndex)).Nodup :=
      (((List.perm_insertionSort _ l).map (fun b => b.paramIndex)).nodup_iff).2 hl
    have hne : (sortBindings l).Pairwise (fun a b => a.paramIndex ≠ b.paramIndex) :=
      (List.pairwise_map).1 hndsort
    exact ((hsortedle l).and hne).imp (fun h => Nat.lt_of_le_of_ne h.1 h.2)
  have hnd2 : (pb2.map (fun b => b.paramIndex)).Nodup :=
    ((hperm.map (fun b => b.paramIndex)).nodup_iff).1 hnd
  exact List.eq_of_perm_of_sorted
    (((List.perm_insertionSort _ pb1).trans hperm).trans
      (List.perm_insertionSort _ pb2).symm)
    (hstrict pb1 hnd) (hstrict pb2 hnd2)

/-- Claim C10: bindings are applied in ascending `paramIndex` order (a
stable sort of the metadata list precedes the binding loop), so the
result is independent of metadata order when indices are distinct; an
index with no binding entry is left `undefined` in the returned array;
and a binding whose source kind is none of
body/query/route/header/context/request/response/service writes
`undefined` at its index. -/
theorem C10_bind_action_arguments :
    (∀ pb : List ParameterBindingMetadata,
      (sortBindings pb).Sorted (fun a b => a.paramIndex ≤ b.paramIndex) ∧
      (sortBindings pb).Perm pb) ∧
    (∀ (pb : List ParameterBindingMetadata) (src : BindSources)
        (rp : List (String × String)) (out : List JsValue) (i : Nat),
      bindActionArguments pb src rp = .ok out →
      (∀ b ∈ pb, b.paramIndex ≠ i) → out.getD i .undef = .undef) ∧
    (∀ (pb1 pb2 : List ParameterBindingMetadata) (src : BindSources)
        (rp : List (String × String)),
      pb1.Perm pb2 → (pb1.map (fun b => b.paramIndex)).Nodup →
      bindActionArguments pb1 src rp = bindActionArguments pb2 src rp) ∧
    (∀ (src : BindSources) (rp : List (String × String)) (args : List JsValue)
        (b : ParameterBindingMetadata),
      b.type ≠ "body" → b.type ≠ "query" → b.type ≠ "route" →
      b.type ≠ "header" → b.type ≠ "context" → b.type ≠ "request" →
      b.type ≠ "response" → b.type ≠ "service" →
      applyBinding src rp args b = .ok (setArg args b.paramIndex .undef)) := by
  refine ⟨?_, ?_, ?_, ?_⟩
  · intro pb
    constructor
    · haveI : IsTotal ParameterBindingMetadata
          (fun a b => a.paramIndex ≤ b.paramIndex) :=
        ⟨fun a b => Nat.le_total a.paramIndex b.paramIndex⟩
      haveI : IsTrans ParameterBindingMetadata
          (fun a b => a.paramIndex ≤ b.paramIndex) :=
        ⟨fun a b c => Nat.le_trans⟩
      exact List.sorted_insertionSort _ pb
    · exact List.perm_insertionSort _ pb
  · intro pb src rp out i h hmem
    refine applyBindings_unbound src rp (sortBindings pb) [] out h i ?_ rfl
    intro b hb
    exact hmem b ((List.perm_insertionSort _ pb).subset hb)
  · intro pb1 pb2 src rp hperm hnd
    unfold bindActionArguments
    rw [sortBindings_eq_of_perm pb1 pb2 hperm hnd]
  · intro src rp args b h1 h2 h3 h4 h5 h6 h7 h8
    unfold applyBinding
    split <;> simp_all

/-- Witness for C10: a two-binding list in reversed index order, with
an unknown source kind at index 1 and nothing bound at index 0 of a
three-slot array. -/
theorem C10_bind_action_arguments_witness :
    (∀ b ∈ [(⟨"query", some "q", 2, some JsCtor.numCtor⟩ : ParameterBindingMetadata)],
        b.paramIndex ≠ 1) ∧
    bindActionArguments
      [⟨"query", some "q", 2, some JsCtor.numCtor⟩]
      ⟨.vobj 7, [("q", .vstr "5")], [], .vobj 1, .vobj 2, .vobj 3, []⟩ [] =
      .ok [.undef, .undef, .vnum 5] ∧
    ([.undef, .undef, .vnum 5] : List JsValue).getD 1 .undef = .undef ∧
    applyBinding ⟨.vobj 7, [("q", .vstr "5")], [], .vobj 1, .vobj 2, .vobj 3, []⟩
      [] [] ⟨"mystery", none, 1, none⟩ =
      .ok (setArg [] 1 .undef) := by
  refine ⟨by decide, by rfl, ?_, ?_⟩
  · exact C10_bind_action_arguments.2.1
      [⟨"query", some "q", 2, some JsCtor.numCtor⟩]
      ⟨.vobj 7, [("q", .vstr "5")], [], .vobj 1, .vobj 2, .vobj 3, []⟩ []
      [.undef, .undef, .vnum 5] 1
      (by rfl)
      (by decide)
  · exact C10_bind_action_arguments.2.2.2
      ⟨.vobj 7, [("q", .vstr "5")], [], .vobj 1, .vobj 2, .vobj 3, []⟩ [] []
      ⟨"mystery", none, 1, none⟩
      (by decide) (by decide) (by decide) (by decide)
      (by decide) (by decide) (by decide) (by decide)

/-! ## Claim C6: route matching -/

/-- Every candidate split of a capture group has a non-empty slash-free
prefix. -/
theorem mem_nonSlashPrefixesDesc (s : List Char) (pr : List Char × List Char)
    (h : pr ∈ nonSlashPrefixesDesc s) :
    pr.1 ≠ [] ∧ ∀ c ∈ pr.1, c ≠ '/' := by
  unfold nonSlashPrefixesDesc at h
  obtain ⟨k, hk, rfl⟩ := List.mem_map.1 h
  have hk' := List.mem_range.1 hk
  set m := (s.takeWhile (fun c => c ≠ '/')).length with hm
  have hmlen : m ≤ s.length :=
    (List.takeWhile_prefix (fun c => decide (c ≠ '/'))).length_le
  constructor
  · show s.take (m - k) ≠ []
    have hlen : (s.take (m - k)).length = m - k := by
      rw [List.length_take]
      omega
    intro hnil
    rw [hnil] at hlen
    simp at hlen
    omega
  · show ∀ c ∈ s.take (m - k), c ≠ '/'
    intro c hc
    have hsub : s.take (m - k) = (s.takeWhile (fun c => c ≠ '/')).take (m - k) := by
      conv_lhs => rw [← List.takeWhile_append_dropWhile (p := fun c => decide (c ≠ '/')) (l := s)]
      rw [List.take_append_eq_append_take]
      have h0 : m - k - (s.takeWhile (fun c => c ≠ '/')).length = 0 := by omega
      rw [h0]
      simp
    rw [hsub] at hc
    have := List.mem_takeWhile_imp (List.take_subset _ _ hc)
    simpa using this

/-- A successful backtracking loop used one of the candidate splits. -/
theorem trySplits_eq_some (f : List Char → Option (List (List Char)))
    (l : List (List Char × List Char)) (caps : List (List Char))
    (h : trySplits f l = some caps) :
    ∃ pr ∈ l, ∃ caps2, f pr.2 = some caps2 ∧ caps = pr.1 :: caps2 := by
  induction l with
  | nil => simp [trySplits] at h
  | cons pr more ih =>
    rw [trySplits] at h
    split at h
    · cases h
      exact ⟨pr, List.mem_cons_self _ _, _, by assumption, rfl⟩
    · obtain ⟨pr2, hpr2, caps2, hf, hcaps⟩ := ih h
      exact ⟨pr2, List.mem_cons_of_mem _ hpr2, caps2, hf, hcaps⟩

/-- Captured groups of a successful match are non-empty and never
contain a path separator: a `:name` group never crosses a slash. -/
theorem matchPieces_caps (ps : List PatternPiece) :
    ∀ (s : List Char) (caps : List (List Char)),
      matchPieces ps s = some caps →
      ∀ cap ∈ caps, cap ≠ [] ∧ ∀ c ∈ cap, c ≠ '/' := by
  induction ps with
  | nil =>
    intro s caps h cap hcap
    rw [matchPieces] at h
    split at h
    · cases h
      simp at hcap
    · cases h
  | cons p rest ih =>
    intro s caps h cap hcap
    match p, s with
    | .lit c, [] => rw [matchPieces] at h; cases h
    | .lit c, c' :: s' =>
      rw [matchPieces] at h
      split at h
      · exact ih s' caps h cap hcap
      · cases h
    | .param n, s =>
      rw [matchPieces] at h
      obtain ⟨pr, hpr, caps2, hf, rfl⟩ := trySplits_eq_some _ _ _ h
      rcases List.mem_cons.1 hcap with rfl | hcap2
      · exact mem_nonSlashPrefixesDesc s pr hpr
      · exact ih pr.2 caps2 hf cap hcap2

/-- A pattern made only of literals matches exactly its own character
sequence, capturing nothing. -/
theorem matchPieces_all_lit (cs : List Char) :
    ∀ s : List Char,
      matchPieces (cs.map PatternPiece.lit) s =
        if s = cs then some [] else none := by
  induction cs with
  | nil =>
    intro s
    simp [matchPieces]
  | cons c cs ih =>
    intro s
    cases s with
    | nil => simp [matchPieces]
    | cons c' s' =>
      simp only [List.map_cons, matchPieces, ih s']
      by_cases hc : c' = c
      · subst hc
        simp only [if_pos rfl]
        by_cases hs : s' = cs <;> simp [hs]
      · simp [hc, fun h => hc (List.cons_eq_cons.1 h).1]

/-- Route table of the precedence scenario from the spec: `/users/:id`
registered before `/users/active`, same method, no explicit order. -/
def C6routes : List RouteData :=
  [⟨.GET, "/users/:id", "UsersController", "getById"⟩,
   ⟨.GET, "/users/active", "UsersController", "getActive"⟩]

/-- Claim C6: matching normalizes the path by stripping one trailing
slash (except the root), scans the table in order skipping
method-mismatched entries, returns the first pattern match with
URL-decoded single-segment parameters, and falls through to `next`
when nothing matches. Conjuncts: (1) method mismatch skips the entry;
(2) the first matching entry wins with its extracted parameters;
(3) a pattern-mismatch skips the entry; (4) captured parameter values
are non-empty and never cross a slash; (5) an all-literal pattern
matches only the identical path; (6) on no match the router middleware
invokes `next`; (7)–(10) the concrete scenarios: the earlier wildcard
route beats the later literal route for `GET /users/active`, a single
trailing slash is stripped, a `:id` segment does not match two
segments, and a captured value is percent-decoded. -/
theorem C6_route_matching :
    (∀ (r : RouteData) (rest : List RouteData) (m : HttpMethod) (p : String),
      r.method ≠ m →
      findMatchedRoute (r :: rest) m p = findMatchedRoute rest m p) ∧
    (∀ (r : RouteData) (rest : List RouteData) (m : HttpMethod) (p : String)
        (caps : List (List Char)),
      r.method = m →
      matchPieces (compilePath r.path) (normalizeRequestPath p).data = some caps →
      findMatchedRoute (r :: rest) m p =
        some (r, extractRouteParams (compilePath r.path) caps)) ∧
    (∀ (r : RouteData) (rest : List RouteData) (m : HttpMethod) (p : String),
      matchPieces (compilePath r.path) (normalizeRequestPath p).data = none →
      findMatchedRoute (r :: rest) m p = findMatchedRoute rest m p) ∧
    (∀ (ps : List PatternPiece) (s : List Char) (caps : List (List Char)),
      matchPieces ps s = some caps →
      ∀ cap ∈ caps, cap ≠ [] ∧ ∀ c ∈ cap, c ≠ '/') ∧
    (∀ (cs s : List Char),
      matchPieces (cs.map PatternPiece.lit) s =
        if s = cs then some [] else none) ∧
    (∀ (routes : List RouteData)
        (hm : RouteData × List (String × String) → ModelHttpContext → ModelHttpContext)
        (ctx : ModelHttpContext) (next : ModelHttpContext → ModelHttpContext),
      findMatchedRoute routes ctx.reqMethod ctx.reqPath = none →
      routerMiddleware routes hm ctx next = next ctx) ∧
    findMatchedRoute C6routes .GET "/users/active" =
      some (⟨.GET, "/users/:id", "UsersController", "getById"⟩,
        [("id", "active")]) ∧
    findMatchedRoute C6routes .GET "/users/42/" =
      some (⟨.GET, "/users/:id", "UsersController", "getById"⟩,
        [("id", "42")]) ∧
    findMatchedRoute C6routes .GET "/users/1/2" = none ∧
    findMatchedRoute C6routes .GET "/users/a%20b" =
      some (⟨.GET, "/users/:id", "UsersController", "getById"⟩,
        [("id", "a b")]) ∧
    normalizeRequestPath "/users/42/" = "/users/42" ∧
    normalizeRequestPath "/" = "/" ∧
    normalizeRequestPath "/users/42" = "/users/42" := by
  refine ⟨?_, ?_, ?_, matchPieces_caps, matchPieces_all_lit, ?_, rfl, rfl, rfl, rfl,
    rfl, rfl, rfl⟩
  · intro r rest m p h
    simp [findMatchedRoute, scanRoutes, h]
  · intro r rest m p caps h hm
    simp [findMatchedRoute, scanRoutes, h, hm]
  · intro r rest m p hm
    by_cases h : r.method = m
    · simp [findMatchedRoute, scanRoutes, h, hm]
    · simp [findMatchedRoute, scanRoutes, h]
  · intro routes hm ctx next h
    simp [routerMiddleware, h]

/-- Witness for the C6 no-match fall-through at a concrete request. -/
theorem C6_route_matching_witness :
    findMatchedRoute C6routes .POST "/users/active" = none ∧
    routerMiddleware C6routes (fun _ c => c)
        { reqMethod := .POST, reqPath := "/users/active", response := {} }
        (fun c => { c with log := c.log ++ ["next-called"] }) =
      { reqMethod := .POST, reqPath := "/users/active",
        response := {}, log := ["next-called"] } := by
  refine ⟨rfl, ?_⟩
  have h := C6_route_matching.2.2.2.2.2.1 C6routes (fun _ c => c)
    { reqMethod := .POST, reqPath := "/users/active", response := {} }
    (fun c => { c with log := c.log ++ ["next-called"] }) rfl
  simpa using h

/-! ## Shared lemmas about the DI interpreter -/

/-- Lookup after `mapSet` at the written key. -/
theorem mapLookup_mapSet_self {K V : Type} [DecidableEq K]
    (m : List (K × V)) (k : K) (v : V) :
    mapLookup (mapSet m k v) k = some v := by
  induction m with
  | nil => simp [mapSet, mapLookup]
  | cons p rest ih =>
    by_cases h : p.1 = k
    · simp [mapSet, mapLookup, h]
    · simp [mapSet, mapLookup, h, ih]

/-- Lookup after `mapSet` at another key. -/
theorem mapLookup_mapSet_ne {K V : Type} [DecidableEq K]
    (m : List (K × V)) (k k' : K) (v : V) (h : k' ≠ k) :
    mapLookup (mapSet m k v) k' = mapLookup m k' := by
  induction m with
  | nil =>
    simp only [mapSet, mapLookup]
    rw [if_neg (fun hk => h hk.symm)]
  | cons p rest ih =>
    simp only [mapSet]
    by_cases hp : p.1 = k
    · simp only [if_pos hp, mapLookup]
      rw [hp]
      rw [if_neg (fun hk => h hk.symm), if_neg (fun hk => h hk.symm)]
    · simp only [if_neg hp, mapLookup, ih]

/-- Reading the cache just written. -/
theorem scopedCacheOf_set_self (w : ProviderWorld) (resv : Resolver)
    (c : List (String × Nat)) :
    scopedCacheOf (setScopedCache w resv c) resv = c := by
  cases resv with
  | root => rfl
  | scope i => simp [scopedCacheOf, setScopedCache, mapLookup_mapSet_self]

/-- Writing the cache of one resolver leaves the cache of every other
resolver unchanged. -/
theorem scopedCacheOf_set_ne (w : ProviderWorld) (resv self : Resolver)
    (c : List (String × Nat)) (h : resv ≠ self) :
    scopedCacheOf (setScopedCache w self c) resv = scopedCacheOf w resv := by
  cases self with
  | root =>
    cases resv with
    | root => exact absurd rfl h
    | scope j => rfl
  | scope i =>
    cases resv with
    | root => rfl
    | scope j =>
      have hij : j ≠ i := fun hji => h (by rw [hji])
      simp [scopedCacheOf, setScopedCache, mapLookup_mapSet_ne _ _ _ _ hij]

/-- Cache writes do not move the identity counter. -/
theorem setScopedCache_nextId (w : ProviderWorld) (resv : Resolver)
    (c : List (String × Nat)) : (setScopedCache w resv c).nextId = w.nextId := by
  cases resv <;> rfl

/-- Cache writes do not touch the singleton map. -/
theorem setScopedCache_singletons (w : ProviderWorld) (resv : Resolver)
    (c : List (String × Nat)) :
    (setScopedCache w resv c).singletonInstances = w.singletonInstances := by
  cases resv <;> rfl

/-- The interpreter never decreases the object-identity counter. -/
theorem diRun_nextId_mono (ds : List ServiceDescriptor) :
    ∀ (fuel : Nat) (call : DICall) (w : ProviderWorld)
      (r : Except String DIRet) (w' : ProviderWorld),
      diRun ds fuel call w = some (r, w') → w.nextId ≤ w'.nextId := by
  intro fuel
  induction fuel with
  | zero => intro call w r w' h; simp [diRun] at h
  | succ n ih =>
    intro call w r w' h
    cases call with
    | getSvc self tok =>
      simp only [diRun] at h
      split at h
      · split at h
        · exact ih _ _ _ _ h
        · cases h; exact Nat.le_refl _
      · split at h
        · split at h
          · cases h; exact Nat.le_refl _
          · split at h
            · cases h
            · cases h
              exact ih _ _ _ _ (by assumption)
            · cases h
              have := ih _ _ _ _ (by assumption)
              simpa using this
            · cases h
        · split at h
          · cases h
          · cases h; exact ih _ _ _ _ (by assumption)
          · cases h; exact ih _ _ _ _ (by assumption)
        · split at h
          · cases h; exact Nat.le_refl _
          · split at h
            · cases h
            · cases h
              exact ih _ _ _ _ (by assumption)
            · cases h
              have := ih _ _ _ _ (by assumption)
              simpa [setScopedCache_nextId] using this
            · cases h
        · split at h
          · cases h
          · cases h; exact ih _ _ _ _ (by assumption)
          · cases h; exact ih _ _ _ _ (by assumption)
          · cases h
    | createSvc d resv =>
      simp only [diRun] at h
      split at h
      · cases h; exact Nat.le_refl _
      · split at h
        · split at h
          · cases h
          · cases h; exact ih _ _ _ _ (by assumption)
          · cases h
            have h2 := ih _ _ _ _ (by assumption)
            show w.nextId ≤ _ + 1
            omega
          · cases h
        · cases h; exact Nat.le_refl _
    | ctorParams cn ps i resv =>
      simp only [diRun] at h
      split at h
      · cases h; exact Nat.le_refl _
      · cases h; exact Nat.le_refl _
      · split at h
        · cases h
        · cases h; exact ih _ _ _ _ (by assumption)
        · cases h; exact ih _ _ _ _ (by assumption)
        · split at h
          · cases h
          · cases h
            exact Nat.le_trans (ih _ _ _ _ (by assumption)) (ih _ _ _ _ (by assumption))
          · cases h
            exact Nat.le_trans (ih _ _ _ _ (by assumption)) (ih _ _ _ _ (by assumption))
          · cases h
        · cases h

/-- Resolver a call executes on (`this` of the source method). -/
def resolverOfCall : DICall → Resolver
  | .getSvc self _ => self
  | .createSvc _ resv => resv
  | .ctorParams _ _ _ resv => resv

/-- Updating the singleton map does not change any scoped cache. -/
theorem scopedCacheOf_update_singletons (w : ProviderWorld)
    (x : List (String × Nat)) (resv : Resolver) :
    scopedCacheOf { w with singletonInstances := x } resv = scopedCacheOf w resv := by
  cases resv <;> rfl

/-- Updating the identity counter does not change any scoped cache. -/
theorem scopedCacheOf_update_nextId (w : ProviderWorld) (x : Nat)
    (resv : Resolver) :
    scopedCacheOf { w with nextId := x } resv = scopedCacheOf w resv := by
  cases resv <;> rfl

/-- A run whose resolver is not the scope `j` leaves the scoped cache
of scope `j` unchanged: in particular, every resolution performed by
the root, and every resolution performed by another scope, is
invisible to the `scopedInstances` map of scope `j`. -/
theorem diRun_preserves_other_scopes (ds : List ServiceDescriptor) :
    ∀ (fuel : Nat) (call : DICall) (w : ProviderWorld)
      (r : Except String DIRet) (w' : ProviderWorld) (j : Nat),
      diRun ds fuel call w = some (r, w') →
      resolverOfCall call ≠ .scope j →
      scopedCacheOf w' (.scope j) = scopedCacheOf w (.scope j) := by
  intro fuel
  induction fuel with
  | zero => intro call w r w' j h _; simp [diRun] at h
  | succ n ih =>
    intro call w r w' j h hres
    cases call with
    | getSvc self tok =>
      simp only [diRun] at h
      split at h
      · split at h
        · exact ih _ _ _ _ _ h (by simp [resolverOfCall])
        · cases h; rfl
      · split at h
        · split at h
          · cases h; rfl
          · split at h
            · cases h
            · cases h
              exact ih _ _ _ _ _ (by assumption) (by simp [resolverOfCall])
            · cases h
              rw [scopedCacheOf_update_singletons]
              exact ih _ _ _ _ _ (by assumption) (by simp [resolverOfCall])
            · cases h
        · split at h
          · cases h
          · cases h
            exact ih _ _ _ _ _ (by assumption) (by simp [resolverOfCall])
          · cases h
            exact ih _ _ _ _ _ (by assumption) (by simp [resolverOfCall])
        · split at h
          · cases h; rfl
          · split at h
            · cases h
            · cases h
              exact ih _ _ _ _ _ (by assumption)
                (by simpa [resolverOfCall] using hres)
            · cases h
              rw [scopedCacheOf_set_ne _ _ _ _ (Ne.symm (by simpa [resolverOfCall] using hres))]
              exact ih _ _ _ _ _ (by assumption)
                (by simpa [resolverOfCall] using hres)
            · cases h
        · split at h
          · cases h
          · cases h
            exact ih _ _ _ _ _ (by assumption)
              (by simpa [resolverOfCall] using hres)
          · cases h
            exact ih _ _ _ _ _ (by assumption)
              (by simpa [resolverOfCall] using hres)
          · cases h
    | createSvc d resv =>
      simp only [diRun] at h
      split at h
      · cases h; rfl
      · split at h
        · split at h
          · cases h
          · cases h
            exact ih _ _ _ _ _ (by assumption)
              (by simpa [resolverOfCall] using hres)
          · cases h
            rw [scopedCacheOf_update_nextId]
            exact ih _ _ _ _ _ (by assumption)
              (by simpa [resolverOfCall] using hres)
          · cases h
        · cases h; rfl
    | ctorParams cn ps i resv =>
      simp only [diRun] at h
      split at h
      · cases h; rfl
      · cases h; rfl
      · split at h
        · cases h
        · cases h
          exact ih _ _ _ _ _ (by assumption)
            (by simpa [resolverOfCall] using hres)
        · cases h
          exact ih _ _ _ _ _ (by assumption)
            (by simpa [resolverOfCall] using hres)
        · split at h
          · cases h
          · cases h
            exact (ih _ _ _ _ _ (by assumption)
                (by simpa [resolverOfCall] using hres)).trans
              (ih _ _ _ _ _ (by assumption)
                (by simpa [resolverOfCall] using hres))
          · cases h
            exact (ih _ _ _ _ _ (by assumption)
                (by simpa [resolverOfCall] using hres)).trans
              (ih _ _ _ _ _ (by assumption)
                (by simpa [resolverOfCall] using hres))
          · cases h
        · cases h

/-- A successful Singleton resolution on the root returns an instance
and leaves it in the singleton cache of the root. -/
theorem getSvc_root_singleton_cache (ds : List ServiceDescriptor)
    (tok : String) (d : ServiceDescriptor) (fuel : Nat) (w : ProviderWorld)
    (r : DIRet) (w' : ProviderWorld)
    (hfind : ds.find? (fun x => x.serviceType == tok) = some d)
    (hlife : d.lifetime = .Singleton)
    (h : diRun ds fuel (.getSvc .root tok) w = some (.ok r, w')) :
    ∃ v, r = .svc (some v) ∧ mapLookup w'.singletonInstances tok = some v := by
  cases fuel with
  | zero => simp [diRun] at h
  | succ n =>
    simp only [diRun, hfind, hlife] at h
    split at h
    · cases h
      exact ⟨_, rfl, by assumption⟩
    · split at h
      · cases h
      · cases h
      · cases h
        exact ⟨_, by rw [mapLookup_mapSet_self], by
          simp only []
          rw [mapLookup_mapSet_self]⟩
      · cases h

/-- A successful Scoped resolution returns an instance and leaves it in
the scoped cache of the resolving provider. -/
theorem getSvc_scoped_cache (ds : List ServiceDescriptor)
    (tok : String) (d : ServiceDescriptor) (self : Resolver) (fuel : Nat)
    (w : ProviderWorld) (r : DIRet) (w' : ProviderWorld)
    (hfind : ds.find? (fun x => x.serviceType == tok) = some d)
    (hlife : d.lifetime = .Scoped)
    (h : diRun ds fuel (.getSvc self tok) w = some (.ok r, w')) :
    ∃ v, r = .svc (some v) ∧ mapLookup (scopedCacheOf w' self) tok = some v := by
  cases fuel with
  | zero => simp [diRun] at h
  | succ n =>
    simp only [diRun, hfind, hlife] at h
    split at h
    · cases h
      exact ⟨_, rfl, by assumption⟩
    · split at h
      · cases h
      · cases h
      · cases h
        exact ⟨_, by rw [scopedCacheOf_set_self, mapLookup_mapSet_self],
          by rw [scopedCacheOf_set_self, mapLookup_mapSet_self]⟩
      · cases h

/-! ## Claim C2: singleton identity and delegation -/

/-- Claim C2: (1) a Singleton resolution entered on a scope delegates
the entire call to the root resolver, only re-wrapping an error with
the service name; (2) such a resolution leaves the scoped cache of
every scope unchanged — a scope never caches a singleton; (3) once a
Singleton resolution has succeeded on the root with instance `v`,
resolving the same token again — from the root or from any scope, any
number of times — returns exactly `v` and does not change the provider
state, which is the reference-identity guarantee. -/
theorem C2_singleton_identity :
    (∀ (ds : List ServiceDescriptor) (tok : String) (d : ServiceDescriptor)
        (i : Nat) (w : ProviderWorld) (fuel : Nat),
      ds.find? (fun x => x.serviceType == tok) = some d →
      d.lifetime = .Singleton →
      diRun ds (fuel + 1) (.getSvc (.scope i) tok) w =
        match diRun ds fuel (.getSvc .root tok) w with
        | none => none
        | some (.error e, w1) => some (.error (wrapServiceError tok e), w1)
        | some (.ok r, w1) => some (.ok r, w1)) ∧
    (∀ (ds : List ServiceDescriptor) (tok : String) (d : ServiceDescriptor)
        (i : Nat) (w : ProviderWorld) (fuel : Nat) (r : Except String DIRet)
        (w1 : ProviderWorld),
      ds.find? (fun x => x.serviceType == tok) = some d →
      d.lifetime = .Singleton →
      diRun ds (fuel + 1) (.getSvc (.scope i) tok) w = some (r, w1) →
      ∀ j, scopedCacheOf w1 (.scope j) = scopedCacheOf w (.scope j)) ∧
    (∀ (ds : List ServiceDescriptor) (tok : String) (d : ServiceDescriptor)
        (w : ProviderWorld) (fuel : Nat) (v : Nat) (w1 : ProviderWorld),
      ds.find? (fun x => x.serviceType == tok) = some d →
      d.lifetime = .Singleton →
      diRun ds fuel (.getSvc .root tok) w = some (.ok (.svc (some v)), w1) →
      (∀ (i fuel2 : Nat),
        diRun ds (fuel2 + 2) (.getSvc (.scope i) tok) w1 =
          some (.ok (.svc (some v)), w1)) ∧
      (∀ fuel2 : Nat,
        diRun ds (fuel2 + 1) (.getSvc .root tok) w1 =
          some (.ok (.svc (some v)), w1))) := by
  refine ⟨?_, ?_, ?_⟩
  · intro ds tok d i w fuel hfind hlife
    simp only [diRun, hfind, hlife]
  · intro ds tok d i w fuel r w1 hfind hlife h
    intro j
    simp only [diRun, hfind, hlife] at h
    split at h
    · cases h
    · cases h
      exact diRun_preserves_other_scopes ds _ _ _ _ _ _ (by assumption)
        (by simp [resolverOfCall])
    · cases h
      exact diRun_preserves_other_scopes ds _ _ _ _ _ _ (by assumption)
        (by simp [resolverOfCall])
  · intro ds tok d w fuel v w1 hfind hlife h
    obtain ⟨v', hv', hcache⟩ :=
      getSvc_root_singleton_cache ds tok d fuel w _ w1 hfind hlife h
    have hvv : v' = v := by
      cases hv'
      rfl
    subst hvv
    constructor
    · intro i fuel2
      simp [diRun, hfind, hlife, hcache]
    · intro fuel2
      simp [diRun, hfind, hlife, hcache]

/-- Registry for the C2 witness: one constructor-implemented Singleton
service. -/
def C2registry : List ServiceDescriptor :=
  [⟨"S", some ⟨"SImpl", []⟩, none, .Singleton⟩]

/-- Witness for C2: after the root materializes the singleton as
instance `100`, a scope resolves the same token to the same instance
`100` without changing the provider state. -/
theorem C2_singleton_identity_witness :
    diRun C2registry 5 (.getSvc .root "S") (initialProviderWorld C2registry 100) =
      some (.ok (.svc (some 100)),
        { singletonInstances := [("S", 100)], rootScopedInstances := [],
          scopeScopedInstances := [], nextId := 101 }) ∧
    diRun C2registry 7 (.getSvc (.scope 0) "S")
        { singletonInstances := [("S", 100)], rootScopedInstances := [],
          scopeScopedInstances := [], nextId := 101 } =
      some (.ok (.svc (some 100)),
        { singletonInstances := [("S", 100)], rootScopedInstances := [],
          scopeScopedInstances := [], nextId := 101 }) := by
  refine ⟨by rfl, ?_⟩
  exact (C2_singleton_identity.2.2 C2registry "S"
    ⟨"S", some ⟨"SImpl", []⟩, none, .Singleton⟩
    (initialProviderWorld C2registry 100) 5 100
    { singletonInstances := [("S", 100)], rootScopedInstances := [],
      scopeScopedInstances := [], nextId := 101 }
    (by rfl) rfl (by rfl)).1 0 5

/-! ## Claim C3: scoped isolation -/

/-- A successful constructor-based `createInstance` allocates a fresh
object identity: at least the counter before the call, strictly below
the counter after it. -/
theorem createSvc_fresh (ds : List ServiceDescriptor) (d : ServiceDescriptor)
    (resv : Resolver) (fuel : Nat) (w : ProviderWorld) (v : Nat)
    (w' : ProviderWorld)
    (hinst : d.implementationInstance = none)
    (h : diRun ds fuel (.createSvc d resv) w = some (.ok (.created v), w')) :
    w.nextId ≤ v ∧ v < w'.nextId := by
  cases fuel with
  | zero => simp [diRun] at h
  | succ n =>
    simp only [diRun, hinst] at h
    split at h
    · split at h
      · cases h
      · cases h
      · cases h
        have hm := diRun_nextId_mono ds n _ _ _ _ (by assumption)
        constructor
        · exact hm
        · show _ < _ + 1
          omega
      · cases h
    · cases h

/-- Registry registering token `"S"` as Scoped with a pre-built
instance `7` (expressible through `IServiceCollection.add`, which
accepts any descriptor). -/
def C3registry : List ServiceDescriptor := [⟨"S", none, some 7, .Scoped⟩]

/-- Claim C3 states that two different scopes always yield two distinct
instances for a Scoped token. With a Scoped descriptor carrying a
pre-built instance, `createInstance` returns that instance in every
scope: scope 0 and scope 1 both resolve `"S"` to the same instance
`7`, so the claimed distinctness fails (and the shared value is
visible to both scopes). -/
theorem C3_scoped_isolation_counterexample :
    diRun C3registry 5 (.getSvc (.scope 0) "S")
        (initialProviderWorld C3registry 100) =
      some (.ok (.svc (some 7)),
        { singletonInstances := [], rootScopedInstances := [],
          scopeScopedInstances := [(0, [("S", 7)])], nextId := 100 }) ∧
    diRun C3registry 5 (.getSvc (.scope 1) "S")
        { singletonInstances := [], rootScopedInstances := [],
          scopeScopedInstances := [(0, [("S", 7)])], nextId := 100 } =
      some (.ok (.svc (some 7)),
        { singletonInstances := [], rootScopedInstances := [],
          scopeScopedInstances := [(0, [("S", 7)]), (1, [("S", 7)])],
          nextId := 100 }) ∧
    (7 : Nat) = 7 := by
  exact ⟨rfl, rfl, rfl⟩

/-- Claim C3 amended: for a **constructor-implemented** Scoped
registration (a pre-built instance is returned as-is and shared, see
the counterexample), (1) two different scopes that have not yet cached
the token resolve it to two distinct instances, and (2) the same
resolver resolving the token twice obtains the same instance with the
provider state unchanged by the second call. -/
theorem C3_scoped_isolation :
    (∀ (ds : List ServiceDescriptor) (tok : String) (d : ServiceDescriptor)
        (i j : Nat) (w : ProviderWorld) (fuel1 fuel2 : Nat) (vi vj : Nat)
        (w1 w2 : ProviderWorld),
      ds.find? (fun x => x.serviceType == tok) = some d →
      d.lifetime = .Scoped →
      d.implementationInstance = none →
      i ≠ j →
      mapLookup (scopedCacheOf w (.scope i)) tok = none →
      mapLookup (scopedCacheOf w (.scope j)) tok = none →
      diRun ds (fuel1 + 1) (.getSvc (.scope i) tok) w =
        some (.ok (.svc (some vi)), w1) →
      diRun ds (fuel2 + 1) (.getSvc (.scope j) tok) w1 =
        some (.ok (.svc (some vj)), w2) →
      vi ≠ vj) ∧
    (∀ (ds : List ServiceDescriptor) (tok : String) (d : ServiceDescriptor)
        (self : Resolver) (w : ProviderWorld) (fuel : Nat) (v : Nat)
        (w1 : ProviderWorld),
      ds.find? (fun x => x.serviceType == tok) = some d →
      d.lifetime = .Scoped →
      diRun ds fuel (.getSvc self tok) w = some (.ok (.svc (some v)), w1) →
      ∀ fuel2 : Nat,
        diRun ds (fuel2 + 1) (.getSvc self tok) w1 =
          some (.ok (.svc (some v)), w1)) := by
  constructor
  · intro ds tok d i j w fuel1 fuel2 vi vj w1 w2 hfind hlife hinst hij hci hcj h1 h2
    have h1copy := h1
    have hcj1 : mapLookup (scopedCacheOf w1 (.scope j)) tok = none := by
      rw [diRun_preserves_other_scopes ds (fuel1 + 1) _ _ _ _ j h1copy
        (by simp [resolverOfCall]; exact fun hx => hij (by rw [hx]))]
      exact hcj
    simp only [diRun, hfind, hlife, hci] at h1
    split at h1
    · cases h1
    · cases h1
    · simp only [scopedCacheOf_set_self, mapLookup_mapSet_self] at h1
      cases h1
      have hfresh1 := createSvc_fresh ds d (.scope i) _ _ _ _ hinst (by assumption)
      simp only [diRun, hfind, hlife, hcj1] at h2
      split at h2
      · cases h2
      · cases h2
      · simp only [scopedCacheOf_set_self, mapLookup_mapSet_self] at h2
        cases h2
        have hfresh2 := createSvc_fresh ds d (.scope j) _ _ _ _ hinst (by assumption)
        rw [setScopedCache_nextId] at hfresh2
        intro hvv
        omega
      · cases h2
    · cases h1
  · intro ds tok d self w fuel v w1 hfind hlife h
    obtain ⟨v', hv', hcache⟩ :=
      getSvc_scoped_cache ds tok d self fuel w _ w1 hfind hlife h
    have hvv : v' = v := by cases hv'; rfl
    subst hvv
    intro fuel2
    simp [diRun, hfind, hlife, hcache]

/-- Registry for the C3 witness: one constructor-implemented Scoped
service. -/
def C3ctorRegistry : List ServiceDescriptor :=
  [⟨"S", some ⟨"SImpl", []⟩, none, .Scoped⟩]

/-- Witness for C3: scope 0 resolves `"S"` to instance `100`, scope 1
then resolves it to instance `101`, and the amended theorem concludes
the two differ; re-resolving in scope 0 returns `100` again. -/
theorem C3_scoped_isolation_witness :
    (100 : Nat) ≠ 101 ∧
    diRun C3ctorRegistry 7 (.getSvc (.scope 0) "S")
        { singletonInstances := [], rootScopedInstances := [],
          scopeScopedInstances :=
            [(0, [("S", 100)]), (1, [("S", 101)])], nextId := 102 } =
      some (.ok (.svc (some 100)),
        { singletonInstances := [], rootScopedInstances := [],
          scopeScopedInstances :=
            [(0, [("S", 100)]), (1, [("S", 101)])], nextId := 102 }) := by
  constructor
  · exact C3_scoped_isolation.1 C3ctorRegistry "S"
      ⟨"S", some ⟨"SImpl", []⟩, none, .Scoped⟩ 0 1
      (initialProviderWorld C3ctorRegistry 100) 4 4 100 101
      { singletonInstances := [], rootScopedInstances := [],
        scopeScopedInstances := [(0, [("S", 100)])], nextId := 101 }
      { singletonInstances := [], rootScopedInstances := [],
        scopeScopedInstances := [(0, [("S", 100)]), (1, [("S", 101)])],
        nextId := 102 }
      (by rfl) rfl rfl (by decide) (by rfl) (by rfl) (by rfl) (by rfl)
  · exact C3_scoped_isolation.2 C3ctorRegistry "S"
      ⟨"S", some ⟨"SImpl", []⟩, none, .Scoped⟩ (.scope 0)
      { singletonInstances := [], rootScopedInstances := [],
        scopeScopedInstances :=
          [(0, [("S", 100)]), (1, [("S", 101)])], nextId := 102 } 5 100
      { singletonInstances := [], rootScopedInstances := [],
        scopeScopedInstances :=
          [(0, [("S", 100)]), (1, [("S", 101)])], nextId := 102 }
      (by rfl) rfl (by rfl) 6

/-! ## Claim C4: transient freshness -/

/-- Caches never change at the key of a Transient-registered token: no
branch of the interpreter writes a token into a cache unless the first
matching descriptor of that token is Singleton or Scoped. -/
theorem diRun_transient_not_cached (ds : List ServiceDescriptor) (tok : String)
    (d : ServiceDescriptor)
    (hfind : ds.find? (fun x => x.serviceType == tok) = some d)
    (hlife : d.lifetime = .Transient) :
    ∀ (fuel : Nat) (call : DICall) (w : ProviderWorld)
      (r : Except String DIRet) (w' : ProviderWorld),
      diRun ds fuel call w = some (r, w') →
      mapLookup w'.singletonInstances tok = mapLookup w.singletonInstances tok ∧
      ∀ resv, mapLookup (scopedCacheOf w' resv) tok =
        mapLookup (scopedCacheOf w resv) tok := by
  intro fuel
  induction fuel with
  | zero => intro call w r w' h; simp [diRun] at h
  | succ n ih =>
    intro call w r w' h
    cases call with
    | getSvc self t =>
      simp only [diRun] at h
      split at h
      · split at h
        · exact ih _ _ _ _ h
        · cases h; exact ⟨rfl, fun _ => rfl⟩
      · rename_i d' hfindt
        split at h
        · rename_i self2 hlifet
          have htok : tok ≠ t := by
            intro hteq
            rw [← hteq] at hfindt
            rw [hfind] at hfindt
            cases hfindt
            rw [hlife] at hlifet
            cases hlifet
          split at h
          · cases h; exact ⟨rfl, fun _ => rfl⟩
          · split at h
            · cases h
            · cases h
              exact ih _ _ _ _ (by assumption)
            · cases h
              obtain ⟨ih1, ih2⟩ := ih _ _ _ _ (by assumption)
              refine ⟨?_, ?_⟩
              · dsimp only
                rw [mapLookup_mapSet_ne _ _ _ _ htok]
                exact ih1
              · intro resv
                rw [scopedCacheOf_update_singletons]
                exact ih2 resv
            · cases h
        · split at h
          · cases h
          · cases h; exact ih _ _ _ _ (by assumption)
          · cases h; exact ih _ _ _ _ (by assumption)
        · rename_i self2 xa xb hlifet
          have htok : tok ≠ t := by
            intro hteq
            rw [← hteq] at hfindt
            rw [hfind] at hfindt
            cases hfindt
            rw [hlife] at hlifet
            cases hlifet
          split at h
          · cases h; exact ⟨rfl, fun _ => rfl⟩
          · split at h
            · cases h
            · cases h
              exact ih _ _ _ _ (by assumption)
            · cases h
              obtain ⟨ih1, ih2⟩ := ih _ _ _ _ (by assumption)
              refine ⟨?_, ?_⟩
              · rw [setScopedCache_singletons]
                exact ih1
              · intro resv
                by_cases hr : resv = self2
                · subst hr
                  rw [scopedCacheOf_set_self,
                    mapLookup_mapSet_ne _ _ _ _ htok]
                  exact ih2 resv
                · rw [scopedCacheOf_set_ne _ _ _ _ hr]
                  exact ih2 resv
            · cases h
        · split at h
          · cases h
          · cases h; exact ih _ _ _ _ (by assumption)
          · cases h; exact ih _ _ _ _ (by assumption)
          · cases h
    | createSvc dd resv =>
      simp only [diRun] at h
      split at h
      · cases h; exact ⟨rfl, fun _ => rfl⟩
      · split at h
        · split at h
          · cases h
          · cases h; exact ih _ _ _ _ (by assumption)
          · cases h
            obtain ⟨ih1, ih2⟩ := ih _ _ _ _ (by assumption)
            refine ⟨ih1, ?_⟩
            intro resv2
            rw [scopedCacheOf_update_nextId]
            exact ih2 resv2
          · cases h
        · cases h; exact ⟨rfl, fun _ => rfl⟩
    | ctorParams cn ps i resv =>
      simp only [diRun] at h
      split at h
      · cases h; exact ⟨rfl, fun _ => rfl⟩
      · cases h; exact ⟨rfl, fun _ => rfl⟩
      · split at h
        · cases h
        · cases h; exact ih _ _ _ _ (by assumption)
        · cases h; exact ih _ _ _ _ (by assumption)
        · rename_i dep w1 heq1
          split at h
          · cases h
          · cases h
            obtain ⟨a1, a2⟩ := ih _ _ _ _ heq1
            obtain ⟨b1, b2⟩ := ih _ _ _ _ (by assumption)
            exact ⟨b1.trans a1, fun resv2 => (b2 resv2).trans (a2 resv2)⟩
          · cases h
            obtain ⟨a1, a2⟩ := ih _ _ _ _ heq1
            obtain ⟨b1, b2⟩ := ih _ _ _ _ (by assumption)
            exact ⟨b1.trans a1, fun resv2 => (b2 resv2).trans (a2 resv2)⟩
          · cases h
        · cases h

/-- Registry registering token `"T"` as Transient with a pre-built
instance `5` (expressible through `IServiceCollection.add`). -/
def C4registry : List ServiceDescriptor := [⟨"T", none, some 5, .Transient⟩]

/-- Claim C4 states that every resolution of a Transient token yields a
freshly created instance, no two calls returning the same one. With a
Transient descriptor carrying a pre-built instance, `createInstance`
returns that same instance on every call: resolving `"T"` leaves the
provider state unchanged and returns instance `5`, so a second,
identical call returns `5` again — the same instance twice. -/
theorem C4_transient_freshness_counterexample :
    getService C4registry 10 .root "T" (initialProviderWorld C4registry 100) =
      some (.ok (some 5), initialProviderWorld C4registry 100) ∧
    (5 : Nat) = 5 := by
  exact ⟨rfl, rfl⟩

/-- Claim C4 amended: for a **constructor-implemented** Transient
registration (a pre-built instance is returned as-is, see the
counterexample), (1) two successive resolutions — from any resolvers —
return distinct instances, every call constructing afresh; and (2)
regardless of implementation, no run of the resolver ever writes a
Transient-registered token into the singleton cache or into any scoped
cache. -/
theorem C4_transient_freshness :
    (∀ (ds : List ServiceDescriptor) (tok : String) (d : ServiceDescriptor)
        (self1 self2 : Resolver) (w : ProviderWorld) (fuel1 fuel2 : Nat)
        (v1 v2 : Nat) (w1 w2 : ProviderWorld),
      ds.find? (fun x => x.serviceType == tok) = some d →
      d.lifetime = .Transient →
      d.implementationInstance = none →
      diRun ds (fuel1 + 1) (.getSvc self1 tok) w =
        some (.ok (.svc (some v1)), w1) →
      diRun ds (fuel2 + 1) (.getSvc self2 tok) w1 =
        some (.ok (.svc (some v2)), w2) →
      v1 ≠ v2) ∧
    (∀ (ds : List ServiceDescriptor) (tok : String) (d : ServiceDescriptor)
        (fuel : Nat) (call : DICall) (w : ProviderWorld)
        (r : Except String DIRet) (w' : ProviderWorld),
      ds.find? (fun x => x.serviceType == tok) = some d →
      d.lifetime = .Transient →
      diRun ds fuel call w = some (r, w') →
      mapLookup w'.singletonInstances tok = mapLookup w.singletonInstances tok ∧
      ∀ resv, mapLookup (scopedCacheOf w' resv) tok =
        mapLookup (scopedCacheOf w resv) tok) := by
  constructor
  · intro ds tok d self1 self2 w fuel1 fuel2 v1 v2 w1 w2 hfind hlife hinst h1 h2
    simp only [diRun, hfind, hlife] at h1 h2
    split at h1
    · cases h1
    · cases h1
    · cases h1
      have hfresh1 := createSvc_fresh ds d self1 _ _ _ _ hinst (by assumption)
      split at h2
      · cases h2
      · cases h2
      · cases h2
        have hfresh2 := createSvc_fresh ds d self2 _ _ _ _ hinst (by assumption)
        intro hvv
        omega
      · cases h2
    · cases h1
  · intro ds tok d fuel call w r w' hfind hlife h
    exact diRun_transient_not_cached ds tok d hfind hlife fuel call w r w' h

/-- Registry for the C4 witness: one constructor-implemented Transient
service. -/
def C4ctorRegistry : List ServiceDescriptor :=
  [⟨"T", some ⟨"TImpl", []⟩, none, .Transient⟩]

/-- Witness for C4: the first resolution of `"T"` constructs instance
`100`, the second constructs instance `101`; the amended theorem
concludes they differ, and the run leaves nothing cached under
`"T"`. -/
theorem C4_transient_freshness_witness :
    (100 : Nat) ≠ 101 ∧
    mapLookup
      ({ singletonInstances := [], rootScopedInstances := [],
         scopeScopedInstances := [], nextId := 101 } : ProviderWorld).singletonInstances
      "T" =
    mapLookup (initialProviderWorld C4ctorRegistry 100).singletonInstances
      "T" := by
  constructor
  · exact C4_transient_freshness.1 C4ctorRegistry "T"
      ⟨"T", some ⟨"TImpl", []⟩, none, .Transient⟩ .root .root
      (initialProviderWorld C4ctorRegistry 100) 4 4 100 101
      { singletonInstances := [], rootScopedInstances := [],
        scopeScopedInstances := [], nextId := 101 }
      { singletonInstances := [], rootScopedInstances := [],
        scopeScopedInstances := [], nextId := 102 }
      (by rfl) rfl rfl (by rfl) (by rfl)
  · exact (C4_transient_freshness.2 C4ctorRegistry "T"
      ⟨"T", some ⟨"TImpl", []⟩, none, .Transient⟩ 5 (.getSvc .root "T")
      (initialProviderWorld C4ctorRegistry 100) (.ok (.svc (some 100)))
      { singletonInstances := [], rootScopedInstances := [],
        scopeScopedInstances := [], nextId := 101 }
      (by rfl) rfl (by rfl)).1

/-! ## Claim C8: unresolvable dependency errors -/

/-- Registry for the C8 concrete instances and witness: the Scoped
service `"H"` is implemented by constructor `HandlerImpl` whose
parameter 0 (`"Dep"`) is registered and whose parameter 1
(`"Missing"`) is not. -/
def C8scopedRegistry : List ServiceDescriptor :=
  [⟨"H", some ⟨"HandlerImpl", [some "Dep", some "Missing"]⟩, none, .Scoped⟩,
   ⟨"Dep", some ⟨"DepImpl", []⟩, none, .Transient⟩]

/-- Registry for the C8 chain instance: Singleton `"A"` depends on
Singleton `"B"`, whose constructor requires the unregistered token
`"C"`. -/
def C8chainRegistry : List ServiceDescriptor :=
  [⟨"A", some ⟨"AImpl", [some "B"]⟩, none, .Singleton⟩,
   ⟨"B", some ⟨"BImpl", [some "C"]⟩, none, .Singleton⟩]

/-- Claim C8, for every constructor-implemented service of any
lifetime, resolved from the root or from any scope, failing at any
constructor parameter position. The conjuncts follow the propagation
path of the source. (1) An unregistered token resolves to null on any
resolver. (2) A parameter whose token resolves to null makes the
parameter loop throw the message naming the failing token, the
parameter's index and the requesting constructor — at whatever index
the parameter sits. (3) A successfully resolved earlier parameter
passes a deeper failure through unchanged, so a failure at any
position escapes the loop. (4) `createInstance` propagates the loop's
error. (5)–(7) `getService` wraps a construction error with the name
of the enclosing service for a Transient or (cache-miss) Scoped
service on any resolver, and for a (cache-miss) Singleton on the root
— the cache-miss hypotheses are forced, since a cached service is
returned without construction. (8) A Singleton resolution entered on a
scope re-wraps an error coming back from the root, lengthening the
trace. (9) End-to-end: on `C8scopedRegistry`, resolving the Scoped
`"H"` from scope 3 fails at parameter index 1 with the fully wrapped
message. (10) End-to-end: on `C8chainRegistry` the failure three
levels down produces the doubly wrapped traceable dependency chain. -/
theorem C8_unresolved_dependency_error :
    (∀ (ds : List ServiceDescriptor) (t : String) (self : Resolver)
        (w : ProviderWorld) (fuel : Nat),
      ds.find? (fun x => x.serviceType == t) = none →
      diRun ds (fuel + 2) (.getSvc self t) w = some (.ok (.svc none), w)) ∧
    (∀ (ds : List ServiceDescriptor) (cn t : String) (rest : List (Option String))
        (i : Nat) (resv : Resolver) (w w1 : ProviderWorld) (fuel : Nat),
      diRun ds fuel (.getSvc resv t) w = some (.ok (.svc none), w1) →
      diRun ds (fuel + 1) (.ctorParams cn (some t :: rest) i resv) w =
        some (.error (unresolvedDepMsg t i cn), w1)) ∧
    (∀ (ds : List ServiceDescriptor) (cn t : String) (rest : List (Option String))
        (i : Nat) (resv : Resolver) (w w1 w2 : ProviderWorld) (v : Nat)
        (e : String) (fuel : Nat),
      diRun ds fuel (.getSvc resv t) w = some (.ok (.svc (some v)), w1) →
      diRun ds fuel (.ctorParams cn rest (i + 1) resv) w1 = some (.error e, w2) →
      diRun ds (fuel + 1) (.ctorParams cn (some t :: rest) i resv) w =
        some (.error e, w2)) ∧
    (∀ (ds : List ServiceDescriptor) (d : ServiceDescriptor) (c : CtorInfo)
        (resv : Resolver) (w w' : ProviderWorld) (e : String) (fuel : Nat),
      d.implementationInstance = none →
      d.implementationType = some c →
      diRun ds fuel (.ctorParams c.ctorName c.paramTokens 0 resv) w =
        some (.error e, w') →
      diRun ds (fuel + 1) (.createSvc d resv) w = some (.error e, w')) ∧
    (∀ (ds : List ServiceDescriptor) (tok : String) (d : ServiceDescriptor)
        (self : Resolver) (w w' : ProviderWorld) (e : String) (fuel : Nat),
      ds.find? (fun x => x.serviceType == tok) = some d →
      d.lifetime = .Transient →
      diRun ds fuel (.createSvc d self) w = some (.error e, w') →
      diRun ds (fuel + 1) (.getSvc self tok) w =
        some (.error (wrapServiceError tok e), w')) ∧
    (∀ (ds : List ServiceDescriptor) (tok : String) (d : ServiceDescriptor)
        (self : Resolver) (w w' : ProviderWorld) (e : String) (fuel : Nat),
      ds.find? (fun x => x.serviceType == tok) = some d →
      d.lifetime = .Scoped →
      mapLookup (scopedCacheOf w self) tok = none →
      diRun ds fuel (.createSvc d self) w = some (.error e, w') →
      diRun ds (fuel + 1) (.getSvc self tok) w =
        some (.error (wrapServiceError tok e), w')) ∧
    (∀ (ds : List ServiceDescriptor) (tok : String) (d : ServiceDescriptor)
        (w w' : ProviderWorld) (e : String) (fuel : Nat),
      ds.find? (fun x => x.serviceType == tok) = some d →
      d.lifetime = .Singleton →
      mapLookup w.singletonInstances tok = none →
      diRun ds fuel (.createSvc d .root) w = some (.error e, w') →
      diRun ds (fuel + 1) (.getSvc .root tok) w =
        some (.error (wrapServiceError tok e), w')) ∧
    (∀ (ds : List ServiceDescriptor) (tok : String) (d : ServiceDescriptor)
        (i : Nat) (w w' : ProviderWorld) (e : String) (fuel : Nat),
      ds.find? (fun x => x.serviceType == tok) = some d →
      d.lifetime = .Singleton →
      diRun ds fuel (.getSvc .root tok) w = some (.error e, w') →
      diRun ds (fuel + 1) (.getSvc (.scope i) tok) w =
        some (.error (wrapServiceError tok e), w')) ∧
    diRun C8scopedRegistry 10 (.getSvc (.scope 3) "H")
        (initialProviderWorld C8scopedRegistry 100) =
      some (.error (wrapServiceError "H"
          (unresolvedDepMsg "Missing" 1 "HandlerImpl")),
        { singletonInstances := [], rootScopedInstances := [],
          scopeScopedInstances := [], nextId := 101 }) ∧
    diRun C8chainRegistry 12 (.getSvc .root "A")
        (initialProviderWorld C8chainRegistry 100) =
      some (.error (wrapServiceError "A" (wrapServiceError "B"
          (unresolvedDepMsg "C" 0 "BImpl"))),
        initialProviderWorld C8chainRegistry 100) := by
  refine ⟨?_, ?_, ?_, ?_, ?_, ?_, ?_, ?_, rfl, rfl⟩
  · intro ds t self w fuel hfindt
    cases self with
    | root => simp only [diRun, hfindt]
    | scope i =>
      show diRun ds (fuel + 1 + 1) _ _ = _
      simp only [diRun, hfindt]
  · intro ds cn t rest i resv w w1 fuel hdep
    simp only [diRun, hdep]
  · intro ds cn t rest i resv w w1 w2 v e fuel h1 h2
    simp only [diRun, h1, h2]
  · intro ds d c resv w w' e fuel hinst hctor herr
    simp only [diRun, hinst, hctor, herr]
  · intro ds tok d self w w' e fuel hfind hlife herr
    simp only [diRun, hfind, hlife, herr]
  · intro ds tok d self w w' e fuel hfind hlife hmiss herr
    simp only [diRun, hfind, hlife, hmiss, herr]
  · intro ds tok d w w' e fuel hfind hlife hmiss herr
    simp only [diRun, hfind, hlife, hmiss, herr]
  · intro ds tok d i w w' e fuel hfind hlife hroot
    simp only [diRun, hfind, hlife, hroot]

/-- Witness for C8, exercising the hypotheses on `C8scopedRegistry`: a
Scoped service, resolved on scope 3, whose failure sits at parameter
index 1 behind a successfully resolved parameter 0. The failing-step
conjunct is applied with the concrete null resolution of `"Missing"`,
and the Scoped-wrap conjunct with the concrete failing
`createInstance` run. -/
theorem C8_unresolved_dependency_error_witness :
    diRun C8scopedRegistry 8
        (.ctorParams "HandlerImpl" [some "Missing"] 1 (.scope 3))
        { singletonInstances := [], rootScopedInstances := [],
          scopeScopedInstances := [], nextId := 101 } =
      some (.error (unresolvedDepMsg "Missing" 1 "HandlerImpl"),
        { singletonInstances := [], rootScopedInstances := [],
          scopeScopedInstances := [], nextId := 101 }) ∧
    diRun C8scopedRegistry 9 (.getSvc (.scope 3) "H")
        (initialProviderWorld C8scopedRegistry 100) =
      some (.error (wrapServiceError "H"
          (unresolvedDepMsg "Missing" 1 "HandlerImpl")),
        { singletonInstances := [], rootScopedInstances := [],
          scopeScopedInstances := [], nextId := 101 }) ∧
    wrapServiceError "H" (unresolvedDepMsg "Missing" 1 "HandlerImpl") =
      "DI Error: Failed to create service \"H\".\n  ---> Could not resolve dependency for token \"Missing\" (parameter 1 of \"HandlerImpl\"). Make sure this dependency is registered in the service collection." := by
  refine ⟨?_, ?_, rfl⟩
  · exact C8_unresolved_dependency_error.2.1 C8scopedRegistry "HandlerImpl"
      "Missing" [] 1 (.scope 3)
      { singletonInstances := [], rootScopedInstances := [],
        scopeScopedInstances := [], nextId := 101 }
      { singletonInstances := [], rootScopedInstances := [],
        scopeScopedInstances := [], nextId := 101 } 7 (by rfl)
  · exact C8_unresolved_dependency_error.2.2.2.2.2.1 C8scopedRegistry "H"
      ⟨"H", some ⟨"HandlerImpl", [some "Dep", some "Missing"]⟩, none, .Scoped⟩
      (.scope 3) (initialProviderWorld C8scopedRegistry 100)
      { singletonInstances := [], rootScopedInstances := [],
        scopeScopedInstances := [], nextId := 101 }
      (unresolvedDepMsg "Missing" 1 "HandlerImpl") 8
      (by rfl) rfl (by rfl) (by rfl)
